import Mathlib

/-!
Shallow embedding of the document-ingestion and lab-value extraction core of
the patient-portal server (`src/server.js`), together with proofs of the
specification's claims about it.

The embedding models the PostgreSQL tables as lists of rows, endpoint
handlers as pure state transformers, and the external inference service as a
function parameter.  Timestamps are natural numbers; numeric measurement
values are integers.
-/

namespace PatientPortal

/-! ## JavaScript string primitives

`String.prototype.toLowerCase`, `String.prototype.includes`,
`String.prototype.indexOf` / `lastIndexOf` and `substring`, modelled on
`List Char`. -/

/-- ASCII lower-casing of one character (the keyword sets are ASCII). -/
def lowerChar (c : Char) : Char :=
  if 'A' ≤ c ∧ c ≤ 'Z' then Char.ofNat (c.toNat + 32) else c

/-- `toLowerCase` over a character list. -/
def lowerList (l : List Char) : List Char := l.map lowerChar

/-- Does the second list begin with the first? -/
def beginsWith : List Char → List Char → Bool
  | [], _ => true
  | _ :: _, [] => false
  | a :: as, b :: bs => a == b && beginsWith as bs

/-- `hay.includes(needle)`: does `needle` occur contiguously in `hay`? -/
def occursIn (needle : List Char) : List Char → Bool
  | [] => needle.isEmpty
  | c :: t => beginsWith needle (c :: t) || occursIn needle t

/-- `text.toLowerCase().includes(keyword)` for a `String` text and keyword. -/
def includesCI (text keyword : String) : Bool :=
  occursIn keyword.toList (lowerList text.toList)

/-- `s.indexOf(c)`: index of the first occurrence of `c`, if any. -/
def firstIdxOf (c : Char) : List Char → Option Nat
  | [] => none
  | a :: t => if a == c then some 0 else (firstIdxOf c t).map (· + 1)

/-- `s.lastIndexOf(c)`: index of the last occurrence of `c`, if any. -/
def lastIdxOf (c : Char) : List Char → Option Nat
  | [] => none
  | a :: t =>
    match lastIdxOf c t with
    | some i => some (i + 1)
    | none => if a == c then some 0 else none

/-! ## Document classifier (`detectLabReport`, src/server.js:1255-1291) -/

/-- The lab-specific keyword list of `detectLabReport`. -/
def labKeywords : List String :=
  ["laboratory", "lab", "blood test", "chemistry", "hematology",
   "hemoglobin", "glucose", "cholesterol", "creatinine", "bun",
   "sodium", "potassium", "chloride", "bicarbonate", "calcium",
   "albumin", "bilirubin", "alt", "ast", "alkaline phosphatase",
   "tsh", "t3", "t4", "hba1c", "platelets", "white blood cells",
   "red blood cells", "wbc", "rbc", "hct", "mcv", "mch", "mchc",
   "mg/dl", "mmol/l", "g/dl", "units/l", "mcg/dl", "ng/ml",
   "reference", "normal", "abnormal", "high", "low", "range"]

/-- The general-medical keyword list of `detectLabReport`. -/
def medicalKeywords : List String :=
  ["ecg", "ekg", "electrocardiogram", "echocardiography", "echo",
   "ct scan", "mri", "x-ray", "ultrasound", "radiology",
   "cardiology", "cardiac", "heart", "pulse", "rhythm",
   "blood pressure", "bp", "systolic", "diastolic",
   "medical", "clinical", "diagnostic", "examination",
   "patient", "physician", "doctor", "hospital", "clinic"]

/-- `detectLabReport(text)`: lower-case the text, count which keywords of each
list occur in it, and flag the document when at least one lab keyword or at
least two medical keywords are found. -/
def detectLabReport (text : String) : Bool :=
  let labMatches := labKeywords.filter (fun kw => includesCI text kw)
  let medicalMatches := medicalKeywords.filter (fun kw => includesCI text kw)
  1 ≤ labMatches.length || 2 ≤ medicalMatches.length

/-! ## Inference-response repair (src/server.js:1147-1164) -/

/-- The response-cleaning step of `analyzeLabDataWithAI`: drop any prefix
before the first `{` (only when its index is positive), then drop any suffix
after the last `}` of what remains (only when that index is positive and not
already the final character). -/
def cleanResponse (response : List Char) : List Char :=
  let jsonResponse :=
    match firstIdxOf '{' response with
    | some i => if 0 < i then response.drop i else response
    | none => response
  match lastIdxOf '}' jsonResponse with
  | some j =>
      if 0 < j ∧ j < jsonResponse.length - 1 then jsonResponse.take (j + 1)
      else jsonResponse
  | none => jsonResponse

/-! ## JSON acceptance

Modelled from the spec: the repository calls the ECMAScript builtin
`JSON.parse` (external to the repository) on the repaired response; only
whether parsing succeeds matters to the claims, so values record the parsed
shape with numbers kept as their digit strings. -/

/-- A parsed JSON value (numbers kept as raw sign/digit characters). -/
inductive JsonVal where
  | str (s : List Char)
  | num (s : List Char)
  | bool (b : Bool)
  | null
  | arr (xs : List JsonVal)
  | obj (fields : List (List Char × JsonVal))

/-- Is the character a hexadecimal digit? -/
def isHexChar (c : Char) : Bool :=
  c.isDigit || ('a' ≤ c && c ≤ 'f') || ('A' ≤ c && c ≤ 'F')

/-- Skip JSON whitespace. -/
def skipWs : List Char → List Char
  | c :: t => if c == ' ' || c == '\n' || c == '\t' || c == '\r' then skipWs t else c :: t
  | [] => []

/-- Parse the body of a JSON string after the opening quote, returning the
content characters and the remainder after the closing quote. -/
def parseStringBody (fuel : Nat) (l : List Char) : Option (List Char × List Char) :=
  match fuel, l with
  | 0, _ => none
  | _, [] => none
  | fuel + 1, c :: t =>
    if c == '"' then some ([], t)
    else if c == '\\' then
      match t with
      | [] => none
      | e :: t2 =>
        if e == '"' || e == '\\' || e == '/' || e == 'b' || e == 'f' ||
           e == 'n' || e == 'r' || e == 't' then
          (parseStringBody fuel t2).map (fun p => (c :: e :: p.1, p.2))
        else if e == 'u' then
          match t2 with
          | h1 :: h2 :: h3 :: h4 :: t3 =>
            if isHexChar h1 && isHexChar h2 && isHexChar h3 && isHexChar h4 then
              (parseStringBody fuel t3).map (fun p => (c :: e :: h1 :: h2 :: h3 :: h4 :: p.1, p.2))
            else none
          | _ => none
        else none
    else (parseStringBody fuel t).map (fun p => (c :: p.1, p.2))

/-- Parse one or more decimal digits. -/
def digits1 : List Char → Option (List Char × List Char)
  | c :: t =>
    if c.isDigit then
      match digits1 t with
      | some (d, r) => some (c :: d, r)
      | none => some ([c], t)
    else none
  | [] => none

/-- Parse a JSON number (sign, integer part, optional fraction/exponent). -/
def parseNumber (l : List Char) : Option (JsonVal × List Char) :=
  let signed : Bool × List Char := match l with
    | '-' :: t => (true, t)
    | _ => (false, l)
  match digits1 signed.2 with
  | none => none
  | some (ip, r1) =>
    let frac : Option (List Char × List Char) :=
      match r1 with
      | '.' :: t =>
        match digits1 t with
        | some (fp, r2) => some ('.' :: fp, r2)
        | none => none
      | _ => some ([], r1)
    match frac with
    | none => none
    | some (fp, r2) =>
      let expo : Option (List Char × List Char) :=
        match r2 with
        | 'e' :: t | 'E' :: t =>
          match t with
          | '+' :: t2 | '-' :: t2 =>
            match digits1 t2 with
            | some (ed, r3) => some ('e' :: ed, r3)
            | none => none
          | _ =>
            match digits1 t with
            | some (ed, r3) => some ('e' :: ed, r3)
            | none => none
        | _ => some ([], r2)
      match expo with
      | none => none
      | some (ep, r3) =>
        some (.num ((if signed.1 then ['-'] else []) ++ ip ++ fp ++ ep), r3)

mutual

/-- Parse one JSON value, skipping leading whitespace. -/
def parseJsonVal : Nat → List Char → Option (JsonVal × List Char)
  | 0, _ => none
  | fuel + 1, l =>
    match skipWs l with
    | [] => none
    | c :: t =>
      if c == '"' then (parseStringBody (fuel + 1) t).map (fun p => (.str p.1, p.2))
      else if c == '{' then
        match skipWs t with
        | '}' :: r => some (.obj [], r)
        | t2 => (parseObjFields fuel t2).map (fun p => (.obj p.1, p.2))
      else if c == '[' then
        match skipWs t with
        | ']' :: r => some (.arr [], r)
        | t2 => (parseArrElems fuel t2).map (fun p => (.arr p.1, p.2))
      else if beginsWith "true".toList (c :: t) then some (.bool true, t.drop 3)
      else if beginsWith "false".toList (c :: t) then some (.bool false, t.drop 4)
      else if beginsWith "null".toList (c :: t) then some (.null, t.drop 3)
      else parseNumber (c :: t)

/-- Parse the members of a JSON object, up to and including the closing `}`. -/
def parseObjFields : Nat → List Char → Option (List (List Char × JsonVal) × List Char)
  | 0, _ => none
  | fuel + 1, l =>
    match skipWs l with
    | '"' :: t =>
      match parseStringBody (fuel + 1) t with
      | none => none
      | some (key, r1) =>
        match skipWs r1 with
        | ':' :: r2 =>
          match parseJsonVal fuel r2 with
          | none => none
          | some (v, r3) =>
            match skipWs r3 with
            | ',' :: r4 =>
              match parseObjFields fuel r4 with
              | some (fs, r5) => some ((key, v) :: fs, r5)
              | none => none
            | '}' :: r4 => some ([(key, v)], r4)
            | _ => none
        | _ => none
    | _ => none

/-- Parse the elements of a JSON array, up to and including the closing `]`. -/
def parseArrElems : Nat → List Char → Option (List JsonVal × List Char)
  | 0, _ => none
  | fuel + 1, l =>
    match parseJsonVal fuel l with
    | none => none
    | some (v, r1) =>
      match skipWs r1 with
      | ',' :: r2 =>
        match parseArrElems fuel r2 with
        | some (vs, r3) => some (v :: vs, r3)
        | none => none
      | ']' :: r2 => some ([v], r2)
      | _ => none

end

/-- `JSON.parse` acceptance: parse a whole string as a single JSON value. -/
def jsonParse (s : String) : Option JsonVal :=
  match parseJsonVal (2 * s.length + 4) s.toList with
  | some (v, rest) => if (skipWs rest).isEmpty then some v else none
  | none => none

/-! ## Data model

Rows of the PostgreSQL tables `users`, `pdf_records`, `lab_values` and
`ai_lab_analysis` (src/server.js:51-179), with timestamps as naturals,
numeric values as integers and the fixed 0.9 confidence score stored in
tenths. -/

/-- A row of the `users` table (fields relevant to the claims). -/
structure UserRow where
  id : Nat
  username : String
  role : String
deriving DecidableEq

/-- A row of the `pdf_records` table. -/
structure PdfRecord where
  id : Nat
  user_id : Nat
  uploaded_by : Nat
  filename : String
  original_name : String
  file_size : Nat
  upload_date : Nat
  record_type : String
  extracted_data : String
  is_lab_report : Bool
  lab_data_extracted : Bool
deriving DecidableEq

/-- A row of the `lab_values` table: one normalized Measurement. -/
structure Measurement where
  user_id : Nat
  record_id : Nat
  test_name : String
  test_category : String
  value : Int
  unit : String
  reference_range : String
  is_abnormal : Bool
  test_date : Option Nat
  extraction_date : Nat
  confidence_score : Nat
deriving DecidableEq

/-- One entry of the `lab_tests_found` or `medical_measurements` arrays of a
parsed inference response (`test_name`/`measurement_name` and
`test_category`/`measurement_category` unified as in the `||` fallbacks of
the insertion loop). -/
structure MeasEntry where
  name : String
  category : String
  value : Option Int
  unit : String
  reference_range : String
  is_abnormal : Bool
  date : Option Nat
  trend : String
deriving DecidableEq

/-- The parsed structured payload produced by the inference service
(fields the server reads; absent arrays are the `|| []` defaults). -/
structure Analysis where
  document_summary : Option String
  lab_tests_found : List MeasEntry
  medical_measurements : List MeasEntry
  overall_risk : Option String
deriving DecidableEq

/-- A row of the `ai_lab_analysis` table. -/
structure AnalysisRow where
  user_id : Nat
  record_id : Nat
  analysis_type : String
  test_name : String
  summary : String
  lab_tests : List MeasEntry
  medical_measurements : List MeasEntry
  risk_level : String
  confidence_score : Nat
deriving DecidableEq

/-- The database state: the four tables, the next `SERIAL` record id, and the
server's error log (modelling the `console.error` call of the measurement
insertion loop). -/
structure DBState where
  users : List UserRow
  pdf_records : List PdfRecord
  lab_values : List Measurement
  ai_lab_analysis : List AnalysisRow
  nextRecordId : Nat
  errorLog : List String
deriving DecidableEq

/-- `SELECT * FROM pdf_records WHERE id = $1 AND user_id = $2`, first row. -/
def findRecord (s : DBState) (recordId userId : Nat) : Option PdfRecord :=
  (s.pdf_records.filter (fun r => r.id == recordId && r.user_id == userId)).head?

/-- `SELECT * FROM pdf_records WHERE id = $1`, first row. -/
def recordById (s : DBState) (recordId : Nat) : Option PdfRecord :=
  (s.pdf_records.filter (fun r => r.id == recordId)).head?

/-- The `lab_values` rows of one record. -/
def labValuesOfRecord (s : DBState) (recordId : Nat) : List Measurement :=
  s.lab_values.filter (fun m => m.record_id == recordId)

/-- The `ai_lab_analysis` rows of one record. -/
def analysesOfRecord (s : DBState) (recordId : Nat) : List AnalysisRow :=
  s.ai_lab_analysis.filter (fun a => a.record_id == recordId)

/-! ## Structured extraction and normalization
(`analyzeLabDataWithAI`, src/server.js:900-1247) -/

/-- One row of the history query joining `lab_values` with `pdf_records`
(src/server.js:905-919); the record columns are `Option` because of the
`LEFT JOIN`. -/
structure HistEntry where
  test_name : String
  value : Int
  unit : String
  test_date : Option Nat
  is_abnormal : Bool
  upload_date : Option Nat
  record_type : Option String
deriving DecidableEq

/-- Descending comparison on optional timestamps (`DESC` puts NULLs first). -/
def optDescLe : Option Nat → Option Nat → Bool
  | none, _ => true
  | some _, none => false
  | some x, some y => y ≤ x

/-- The `ORDER BY lv.test_date DESC, pr.upload_date DESC` comparator. -/
def histLe (a b : HistEntry) : Bool :=
  if a.test_date = b.test_date then optDescLe a.upload_date b.upload_date
  else optDescLe a.test_date b.test_date

/-- The joined history row for one measurement. -/
def histEntryOf (s : DBState) (m : Measurement) : HistEntry :=
  let pr := recordById s m.record_id
  { test_name := m.test_name, value := m.value, unit := m.unit,
    test_date := m.test_date, is_abnormal := m.is_abnormal,
    upload_date := pr.map (·.upload_date), record_type := pr.map (·.record_type) }

/-- The trend-context query of `analyzeLabDataWithAI`: the user's measurements
from other records, most recent first, limited to 100 rows. -/
def historyFor (s : DBState) (userId recordId : Nat) : List HistEntry :=
  (((s.lab_values.filter (fun m => m.user_id == userId && m.record_id != recordId)).map
      (histEntryOf s)).mergeSort histLe).take 100

/-- The external inference service (`analyzeWithClaudeAI` composed with the
response repair and `JSON.parse`): document text and history context in,
parsed Analysis out, `none` on transport/parse failure. -/
abbrev AIFun := String → List HistEntry → Option Analysis

/-- Decides whether the `INSERT INTO lab_values` of one entry succeeds
(the per-entry `try/catch` of the insertion loop). -/
abbrev InsertOk := MeasEntry → Bool

/-- The `lab_values` row built for one entry with a present numeric value
(confidence 0.9 stored as 9 tenths, extraction date defaulted to now). -/
def measurementRow (userId recordId now : Nat) (e : MeasEntry) (v : Int) : Measurement :=
  { user_id := userId, record_id := recordId, test_name := e.name,
    test_category := e.category, value := v, unit := e.unit,
    reference_range := e.reference_range, is_abnormal := e.is_abnormal,
    test_date := e.date, extraction_date := now, confidence_score := 9 }

/-- The measurement insertion loop (src/server.js:1211-1234): entries with a
`null`/absent value are skipped; a failing insert is logged and the loop
continues.  Returns the inserted rows in order and the failure count. -/
def storeMeasurements (insertOk : InsertOk) (userId recordId now : Nat) :
    List MeasEntry → List Measurement × Nat
  | [] => ([], 0)
  | e :: rest =>
    match e.value with
    | none => storeMeasurements insertOk userId recordId now rest
    | some v =>
      let tail := storeMeasurements insertOk userId recordId now rest
      if insertOk e then (measurementRow userId recordId now e v :: tail.1, tail.2)
      else (tail.1, tail.2 + 1)

/-- The `ai_lab_analysis` row inserted for a parsed analysis
(src/server.js:1178-1200), with the `||` defaults for a missing summary and
risk level. -/
def analysisRowOf (userId recordId : Nat) (a : Analysis) : AnalysisRow :=
  { user_id := userId, record_id := recordId, analysis_type := "comprehensive",
    test_name := "all_tests",
    summary := a.document_summary.getD "No summary available",
    lab_tests := a.lab_tests_found,
    medical_measurements := a.medical_measurements,
    risk_level := a.overall_risk.getD "unknown",
    confidence_score := 9 }

/-- `UPDATE pdf_records SET lab_data_extracted = TRUE WHERE id = recordId`,
applied to one row. -/
def markAnalyzed (recordId : Nat) (r : PdfRecord) : PdfRecord :=
  if r.id == recordId then { r with lab_data_extracted := true } else r

/-- `analyzeLabDataWithAI(text, recordId, userId, recordType)`: fetch history,
call the inference service on the (truncated) text, and on success insert the
`ai_lab_analysis` row, insert the measurement rows, and mark the record as
analyzed.  On inference or parse failure the `catch` returns `null` with the
state untouched. -/
def analyzeLabDataWithAI (ai : AIFun) (insertOk : InsertOk) (text : String)
    (recordId userId now : Nat) (s : DBState) : DBState × Option Analysis :=
  let hist := historyFor s userId recordId
  match ai (text.take 15000) hist with
  | none => (s, none)
  | some analysis =>
    let allMeasurements := analysis.lab_tests_found ++ analysis.medical_measurements
    let stored := storeMeasurements insertOk userId recordId now allMeasurements
    ({ s with
        ai_lab_analysis := s.ai_lab_analysis ++ [analysisRowOf userId recordId analysis],
        lab_values := s.lab_values ++ stored.1,
        errorLog := s.errorLog ++ List.replicate stored.2 "Error inserting measurement",
        pdf_records := s.pdf_records.map (markAnalyzed recordId) },
      some analysis)

/-! ## Re-analysis endpoint
(`POST /api/lab-values/extract/:recordId`, src/server.js:1618-1654) -/

/-- The response of the re-analysis endpoint. -/
inductive ReanalyzeResponse where
  | recordNotFound
  | apiKeyMissing
  | reanalyzed (extracted_tests : Nat) (summary : Option String)
deriving DecidableEq

/-- The re-analysis endpoint: look up the caller's record, delete its
`lab_values` and `ai_lab_analysis` rows, then (only if an API key is
configured) re-run `analyzeLabDataWithAI` on the stored raw text and answer
with `analysis?.lab_tests_found?.length || 0` and
`analysis?.document_summary`. -/
def reanalyzeEndpoint (hasKey : Bool) (ai : AIFun) (insertOk : InsertOk)
    (recordId userId now : Nat) (s : DBState) : DBState × ReanalyzeResponse :=
  match findRecord s recordId userId with
  | none => (s, .recordNotFound)
  | some record =>
    let s1 := { s with
      lab_values := s.lab_values.filter (fun m => m.record_id != recordId) }
    let s2 := { s1 with
      ai_lab_analysis := s1.ai_lab_analysis.filter (fun a => a.record_id != recordId) }
    if hasKey then
      let res := analyzeLabDataWithAI ai insertOk record.extracted_data recordId userId now s2
      match res.2 with
      | some a => (res.1, .reanalyzed a.lab_tests_found.length a.document_summary)
      | none => (res.1, .reanalyzed 0 none)
    else (s2, .apiKeyMissing)

/-! ## Deletion endpoints
(src/server.js:732-781, 1374-1400, 1403-1453) -/

/-- The response of a deletion endpoint: 404, success, or the handler's
catch-all 500 (`Database error`) raised when a statement fails. -/
inductive DeleteResponse where
  | notFound
  | deleted
  | dbError
deriving DecidableEq

/-- Does deleting the `pdf_records` rows selected by `doomed` violate a
FOREIGN KEY?  PostgreSQL enforces `lab_values.record_id` and
`ai_lab_analysis.record_id` (src/server.js:105, 135; both NO ACTION): the
DELETE raises an error when a remaining child row references a record row
being deleted.  Each statement runs in its own transaction (plain
`pool.query` calls), so earlier deletes persist when a later one fails. -/
def recordDeleteFkBlocked (s : DBState) (doomed : PdfRecord → Bool) : Bool :=
  s.lab_values.any (fun m =>
    s.pdf_records.any (fun r => doomed r && r.id == m.record_id)) ||
  s.ai_lab_analysis.any (fun a =>
    s.pdf_records.any (fun r => doomed r && r.id == a.record_id))

/-- Does deleting user row `targetId` violate a FOREIGN KEY?  `users` is
referenced by `pdf_records.user_id` and `pdf_records.uploaded_by`
(src/server.js:84-85), `lab_values.user_id` (src/server.js:104) and
`ai_lab_analysis.user_id` (src/server.js:134).  The `password_reset_tokens`
table also references `users` but is outside the model (no claim concerns
it); its check could only add one more failure case to the final
statement. -/
def userDeleteFkBlocked (s : DBState) (targetId : Nat) : Bool :=
  s.pdf_records.any (fun r => r.user_id == targetId || r.uploaded_by == targetId) ||
  s.lab_values.any (fun m => m.user_id == targetId) ||
  s.ai_lab_analysis.any (fun a => a.user_id == targetId)

/-- `DELETE /api/records/:recordId` (owner path): check ownership, then delete
the record's `lab_values`, its `ai_lab_analysis`, then the record row; the
last DELETE is subject to the FOREIGN KEY checks (which cannot fire here:
both child tables were just cleared of the record's rows). -/
def deleteRecordEndpoint (recordId userId : Nat) (s : DBState) :
    DBState × DeleteResponse :=
  match findRecord s recordId userId with
  | none => (s, .notFound)
  | some _ =>
    let s1 := { s with
      lab_values := s.lab_values.filter (fun m => m.record_id != recordId) }
    let s2 := { s1 with
      ai_lab_analysis := s1.ai_lab_analysis.filter (fun a => a.record_id != recordId) }
    if recordDeleteFkBlocked s2 (fun r => r.id == recordId) then (s2, .dbError)
    else
      ({ s2 with pdf_records := s2.pdf_records.filter (fun r => r.id != recordId) },
        .deleted)

/-- `DELETE /api/admin/records/:recordId`: as above without the ownership
restriction. -/
def adminDeleteRecordEndpoint (recordId : Nat) (s : DBState) :
    DBState × DeleteResponse :=
  match recordById s recordId with
  | none => (s, .notFound)
  | some _ =>
    let s1 := { s with
      lab_values := s.lab_values.filter (fun m => m.record_id != recordId) }
    let s2 := { s1 with
      ai_lab_analysis := s1.ai_lab_analysis.filter (fun a => a.record_id != recordId) }
    if recordDeleteFkBlocked s2 (fun r => r.id == recordId) then (s2, .dbError)
    else
      ({ s2 with pdf_records := s2.pdf_records.filter (fun r => r.id != recordId) },
        .deleted)

/-- `DELETE /api/admin/users/:userId`: delete the user's `lab_values`, then
the user's `pdf_records`, then the user row (404 only when no user row was
deleted).  The `ai_lab_analysis` table is never touched, so the
`pdf_records` DELETE fails its FOREIGN KEY check — the handler's catch
answers 500 `Database error` — whenever any remaining measurement or
analysis row references one of the user's records; the `lab_values` deletion
has already run and persists.  The `users` DELETE is likewise subject to its
FOREIGN KEY checks. -/
def adminDeleteUserEndpoint (targetId : Nat) (s : DBState) :
    DBState × DeleteResponse :=
  let s1 := { s with
    lab_values := s.lab_values.filter (fun m => m.user_id != targetId) }
  if recordDeleteFkBlocked s1 (fun r => r.user_id == targetId) then (s1, .dbError)
  else
    let s2 := { s1 with
      pdf_records := s1.pdf_records.filter (fun r => r.user_id != targetId) }
    if userDeleteFkBlocked s2 targetId then (s2, .dbError)
    else
      let existed := s2.users.any (fun u => u.id == targetId)
      ({ s2 with users := s2.users.filter (fun u => u.id != targetId) },
        if existed then .deleted else .notFound)

/-! ## Upload endpoint (`POST /api/upload`, src/server.js:471-578) -/

/-- One uploaded file as multer presents it. -/
structure UFile where
  filename : String
  originalname : String
  mimetype : String
  size : Nat
deriving DecidableEq

/-- The DOCX MIME type string the server compares against. -/
def docxMime : String :=
  "application/vnd.openxmlformats-officedocument.wordprocessingml.document"

/-- The per-format text extraction of the upload loop: `pdf-parse` for PDFs,
`mammoth` for DOCX (either may fail), empty text for any other type.  The two
decoders are external libraries and are passed in as functions. -/
def extractFileText (pdfParseFn mammothFn : UFile → Except String String)
    (f : UFile) : Except String String :=
  if f.mimetype == "application/pdf" then pdfParseFn f
  else if f.mimetype == docxMime then mammothFn f
  else .ok ""

/-- A `results[]` entry of the upload response. -/
structure UploadSuccess where
  filename : String
  record_id : Nat
  is_lab_report : Bool
deriving DecidableEq

/-- An `errors[]` entry of the upload response. -/
structure UploadFailure where
  filename : String
  error : String
deriving DecidableEq

/-- The upload response: `successful`, `failed` and the two ordered lists. -/
inductive UploadResponse where
  | noFiles
  | processed (successful failed : Nat)
      (results : List UploadSuccess) (errors : List UploadFailure)
deriving DecidableEq

/-- The `pdf_records` row inserted for one uploaded file
(src/server.js:528-532). -/
def newRecordOf (recordType : String) (userId now : Nat) (f : UFile)
    (text : String) (rid : Nat) : PdfRecord :=
  { id := rid, user_id := userId, uploaded_by := userId, filename := f.filename,
    original_name := f.originalname, file_size := f.size, upload_date := now,
    record_type := recordType, extracted_data := text,
    is_lab_report := detectLabReport text, lab_data_extracted := false }

/-- The body of the per-file loop: extract text (any extraction failure is
caught and recorded as a failure entry), classify, insert the `pdf_records`
row, and run the AI analysis when a key is configured (its errors are caught
and ignored). -/
def processUploadFile (hasKey : Bool)
    (pdfParseFn mammothFn : UFile → Except String String)
    (ai : AIFun) (insertOk : InsertOk) (recordType : String) (userId now : Nat)
    (s : DBState) (f : UFile) : DBState × (UploadSuccess ⊕ UploadFailure) :=
  match extractFileText pdfParseFn mammothFn f with
  | .error e => (s, .inr ⟨f.originalname, e⟩)
  | .ok text =>
    let rid := s.nextRecordId
    let record := newRecordOf recordType userId now f text rid
    let s1 := { s with pdf_records := s.pdf_records ++ [record], nextRecordId := rid + 1 }
    let s2 := if hasKey then (analyzeLabDataWithAI ai insertOk text rid userId now s1).1 else s1
    (s2, .inl ⟨f.originalname, rid, detectLabReport text⟩)

/-- One step of the upload loop, appending to the `results`/`errors` lists. -/
def uploadStep (hasKey : Bool) (pdfParseFn mammothFn : UFile → Except String String)
    (ai : AIFun) (insertOk : InsertOk) (recordType : String) (userId now : Nat)
    (acc : DBState × List UploadSuccess × List UploadFailure) (f : UFile) :
    DBState × List UploadSuccess × List UploadFailure :=
  let r := processUploadFile hasKey pdfParseFn mammothFn ai insertOk recordType userId now acc.1 f
  match r.2 with
  | .inl ok => (r.1, acc.2.1 ++ [ok], acc.2.2)
  | .inr err => (r.1, acc.2.1, acc.2.2 ++ [err])

/-- `POST /api/upload`: reject an empty batch, otherwise process the files in
order and answer with the counts and both lists. -/
def uploadEndpoint (hasKey : Bool) (pdfParseFn mammothFn : UFile → Except String String)
    (ai : AIFun) (insertOk : InsertOk) (recordType : String) (userId now : Nat)
    (files : List UFile) (s : DBState) : DBState × UploadResponse :=
  if files.isEmpty then (s, .noFiles)
  else
    let acc := files.foldl (uploadStep hasKey pdfParseFn mammothFn ai insertOk recordType userId now) (s, [], [])
    (acc.1, .processed acc.2.1.length acc.2.2.length acc.2.1 acc.2.2)

/-! ## Trend queries (src/server.js:1458-1549, 1917-1948) -/

/-- PostgreSQL `LIKE` pattern matching: `%` matches any sequence, `_` any
one character, the default escape character `\` makes the next pattern
character literal, and any other pattern character matches itself.  A
pattern ending in the escape character is an error in PostgreSQL
(`LIKE pattern must not end with escape character`, the query fails); the
model returns `false` there — the by-name theorems only quantify over
queries without `LIKE`-special characters, where the case cannot arise. -/
def likeMatch : List Char → List Char → Bool
  | [], s => s.isEmpty
  | c :: p, s =>
    if c = '\\' then
      match p, s with
      | [], _ => false
      | _ :: _, [] => false
      | d :: p2, b :: t => d == b && likeMatch p2 t
    else if c = '%' then
      likeMatch p s ||
        (match s with
         | [] => false
         | _ :: t => likeMatch (c :: p) t)
    else
      match s with
      | [] => false
      | b :: t => if c = '_' then likeMatch p t else c == b && likeMatch p t
termination_by p s => (s.length, p.length)

/-- Ascending comparison on optional timestamps (`ASC` puts NULLs last). -/
def optAscLe : Option Nat → Option Nat → Bool
  | none, none => true
  | none, some _ => false
  | some _, none => true
  | some x, some y => x ≤ y

/-- The `ORDER BY lv.test_date ASC, lv.extraction_date ASC` comparator. -/
def measAscLe (a b : Measurement) : Bool :=
  if a.test_date = b.test_date then a.extraction_date ≤ b.extraction_date
  else optAscLe a.test_date b.test_date

/-- The `ORDER BY lv.test_date DESC, lv.extraction_date DESC` comparator of
the flat listing. -/
def measDescLe (a b : Measurement) : Bool :=
  if a.test_date = b.test_date then b.extraction_date ≤ a.extraction_date
  else optDescLe a.test_date b.test_date

/-- `GET /api/lab-values`: the owner's measurements, most recent first. -/
def labValuesListing (s : DBState) (userId : Nat) : List Measurement :=
  (s.lab_values.filter (fun m => m.user_id == userId)).mergeSort measDescLe

/-- `GET /api/lab-values/:testName` (and `/api/lab-values/trends/:testName`):
the owner's measurements whose name matches `LIKE '%' || q || '%'`, ascending
by date. -/
def labValuesByTestName (s : DBState) (userId : Nat) (q : String) :
    List Measurement :=
  (s.lab_values.filter (fun m => m.user_id == userId &&
      likeMatch ('%' :: (q.toList ++ ['%'])) m.test_name.toList)).mergeSort measAscLe

/-- The `record_type` of the record a measurement references (`LEFT JOIN`,
so `none` when the record row is gone). -/
def recordTypeOf (s : DBState) (m : Measurement) : Option String :=
  (recordById s m.record_id).map (·.record_type)

/-- The `ORDER BY pr.record_type, lv.test_name, lv.test_date ASC,
lv.extraction_date ASC` comparator of the grouped-trends query. -/
def groupLe (s : DBState) (a b : Measurement) : Bool :=
  let ra := recordTypeOf s a
  let rb := recordTypeOf s b
  if ra = rb then
    if a.test_name = b.test_name then measAscLe a b
    else a.test_name ≤ b.test_name
  else
    match ra, rb with
    | none, _ => true
    | some _, none => false
    | some x, some y => x ≤ y

/-- The row stream of the grouped-trends query. -/
def groupedSourceRows (s : DBState) (userId : Nat) : List Measurement :=
  (s.lab_values.filter (fun m => m.user_id == userId)).mergeSort (groupLe s)

/-- Append a row to the leaf list of its test name (`grouped[rt][tn].push`). -/
def pushLeaf (name : String) (m : Measurement) :
    List (String × List Measurement) → List (String × List Measurement)
  | [] => [(name, [m])]
  | (n, l) :: t =>
    if n == name then (n, l ++ [m]) :: t else (n, l) :: pushLeaf name m t

/-- Append a row under its record type and test name. -/
def pushGroup (rt : Option String) (name : String) (m : Measurement) :
    List (Option String × List (String × List Measurement)) →
    List (Option String × List (String × List Measurement))
  | [] => [(rt, pushLeaf name m [])]
  | (k, g) :: t =>
    if k == rt then (k, pushLeaf name m g) :: t else (k, g) :: pushGroup rt name m t

/-- `GET /api/lab-values/grouped-trends`: the owner's measurements grouped by
record type, then test name (keys in first-appearance order, leaves in query
order). -/
def groupedTrendsEndpoint (s : DBState) (userId : Nat) :
    List (Option String × List (String × List Measurement)) :=
  (groupedSourceRows s userId).foldl
    (fun acc m => pushGroup (recordTypeOf s m) m.test_name m acc) []

/-- Flatten the grouped-trends output back to its measurement rows. -/
def flattenGrouped
    (g : List (Option String × List (String × List Measurement))) :
    List Measurement :=
  (g.map (fun kv => (kv.2.map Prod.snd).flatten)).flatten

/-! ## General list lemmas -/

/-- A filter is nonempty exactly when some element satisfies the predicate. -/
theorem one_le_length_filter_iff {α : Type} (l : List α) (p : α → Bool) :
    1 ≤ (l.filter p).length ↔ ∃ x ∈ l, p x = true := by
  rw [Nat.one_le_iff_ne_zero, Ne, List.length_eq_zero]
  constructor
  · intro h
    obtain ⟨x, hx⟩ := List.exists_mem_of_ne_nil _ h
    exact ⟨x, (List.mem_filter.mp hx).1, (List.mem_filter.mp hx).2⟩
  · rintro ⟨x, hxl, hpx⟩ hnil
    exact absurd (hnil ▸ List.mem_filter.mpr ⟨hxl, hpx⟩) (List.not_mem_nil x)

/-- Over a duplicate-free list, a filter has at least two elements exactly
when two distinct elements satisfy the predicate. -/
theorem two_le_length_filter_iff {α : Type} [DecidableEq α] (l : List α)
    (p : α → Bool) (hl : l.Nodup) :
    2 ≤ (l.filter p).length ↔
      ∃ x ∈ l, ∃ y ∈ l, x ≠ y ∧ p x = true ∧ p y = true := by
  constructor
  · intro h
    match hfl : l.filter p with
    | [] => rw [hfl] at h; simp at h
    | [x] => rw [hfl] at h; simp at h
    | x :: y :: rest =>
      have hx : x ∈ l.filter p := by rw [hfl]; exact List.mem_cons_self _ _
      have hy : y ∈ l.filter p := by
        rw [hfl]; exact List.mem_cons_of_mem _ (List.mem_cons_self _ _)
      have hnd : (l.filter p).Nodup := hl.filter p
      have hxy : x ≠ y := by
        rw [hfl] at hnd
        intro hEq
        exact (List.nodup_cons.mp hnd).1 (hEq ▸ List.mem_cons_self _ _)
      exact ⟨x, (List.mem_filter.mp hx).1, y, (List.mem_filter.mp hy).1, hxy,
        (List.mem_filter.mp hx).2, (List.mem_filter.mp hy).2⟩
  · rintro ⟨x, hxl, y, hyl, hxy, hpx, hpy⟩
    have hx : x ∈ l.filter p := List.mem_filter.mpr ⟨hxl, hpx⟩
    have hy : y ∈ l.filter p := List.mem_filter.mpr ⟨hyl, hpy⟩
    have hsub : ({x, y} : Finset α) ⊆ (l.filter p).toFinset := by
      intro z hz
      rcases Finset.mem_insert.mp hz with h1 | h2
      · exact List.mem_toFinset.mpr (h1 ▸ hx)
      · exact List.mem_toFinset.mpr ((Finset.mem_singleton.mp h2) ▸ hy)
    calc 2 = ({x, y} : Finset α).card := (Finset.card_pair hxy).symm
      _ ≤ (l.filter p).toFinset.card := Finset.card_le_card hsub
      _ ≤ (l.filter p).length := List.toFinset_card_le _

/-! ## Lemmas about the response repair -/

/-- A last-occurrence index is inside the list. -/
theorem lastIdxOf_lt_length (c : Char) :
    ∀ (l : List Char) (q : Nat), lastIdxOf c l = some q → q < l.length := by
  intro l
  induction l with
  | nil => intro q h; simp [lastIdxOf] at h
  | cons a t ih =>
    intro q h
    cases ht : lastIdxOf c t with
    | some i =>
      simp only [lastIdxOf, ht, Option.some_inj] at h
      have := ih i ht
      simp only [List.length_cons]
      omega
    | none =>
      simp only [lastIdxOf, ht] at h
      split at h
      · simp only [Option.some_inj] at h
        simp only [List.length_cons]
        omega
      · simp at h

/-- Dropping a prefix that stays below the last occurrence shifts its index. -/
theorem lastIdxOf_drop (c : Char) :
    ∀ (p : Nat) (l : List Char) (q : Nat), lastIdxOf c l = some q → p ≤ q →
      lastIdxOf c (l.drop p) = some (q - p) := by
  intro p
  induction p with
  | zero => intro l q h _; simpa using h
  | succ p ih =>
    intro l q h hpq
    cases l with
    | nil => simp [lastIdxOf] at h
    | cons a t =>
      have hq1 : 1 ≤ q := le_trans (Nat.succ_le_succ (Nat.zero_le p)) hpq
      cases ht : lastIdxOf c t with
      | some i =>
        simp only [lastIdxOf, ht, Option.some_inj] at h
        have hti : lastIdxOf c t = some (q - 1) := by
          rw [ht]
          exact congrArg some (by omega)
        rw [List.drop_succ_cons, ih t (q - 1) hti (by omega)]
        exact congrArg some (by omega)
      | none =>
        simp only [lastIdxOf, ht] at h
        split at h
        · simp only [Option.some_inj] at h
          omega
        · simp at h

/-- The repaired response is the substring from the first `{` through the
last `}` whenever the first `{` comes before the last `}`. -/
theorem cleanResponse_eq_slice (s : List Char) (p q : Nat)
    (hp : firstIdxOf '{' s = some p) (hq : lastIdxOf '}' s = some q)
    (hpq : p < q) :
    cleanResponse s = (s.drop p).take (q - p + 1) := by
  have hdrop : lastIdxOf '}' (s.drop p) = some (q - p) :=
    lastIdxOf_drop '}' p s q hq (le_of_lt hpq)
  have hqlen : q < s.length := lastIdxOf_lt_length '}' s q hq
  have hlen : (s.drop p).length = s.length - p := List.length_drop p s
  have hqp0 : 0 < q - p := by omega
  simp only [cleanResponse, hp]
  by_cases hp0 : 0 < p
  · simp only [if_pos hp0, hdrop]
    by_cases hend : q - p < (s.drop p).length - 1
    · rw [if_pos ⟨hqp0, hend⟩]
    · rw [if_neg (fun hc => hend hc.2)]
      have hq' : q - p = (s.drop p).length - 1 := by omega
      rw [List.take_of_length_le (by omega)]
  · have hp' : p = 0 := by omega
    subst hp'
    simp only [List.drop_zero] at hdrop hlen ⊢
    simp only [if_neg hp0, hdrop]
    by_cases hend : q < s.length - 1
    · rw [if_pos ⟨hqp0, hend⟩]
    · rw [if_neg (fun hc => hend hc.2)]
      rw [List.take_of_length_le (by omega)]

/-! ## Lemmas about normalization and re-analysis -/

/-- The row (if any) that the insertion loop stores for one entry. -/
def storedRowOf (insertOk : InsertOk) (userId recordId now : Nat)
    (e : MeasEntry) : Option Measurement :=
  match e.value with
  | none => none
  | some v =>
    if insertOk e then some (measurementRow userId recordId now e v) else none

/-- The rows the insertion loop stores are the per-entry rows in order. -/
theorem storeMeasurements_rows (insertOk : InsertOk) (userId recordId now : Nat) :
    ∀ entries : List MeasEntry,
      (storeMeasurements insertOk userId recordId now entries).1 =
        entries.filterMap (storedRowOf insertOk userId recordId now) := by
  intro entries
  induction entries with
  | nil => rfl
  | cons e rest ih =>
    cases hv : e.value with
    | none => simp [storeMeasurements, storedRowOf, hv, List.filterMap_cons, ih]
    | some v =>
      by_cases hok : insertOk e
      · simp [storeMeasurements, storedRowOf, hv, hok, List.filterMap_cons, ih]
      · simp [storeMeasurements, storedRowOf, hv, hok, List.filterMap_cons, ih]

/-- The failure count of the insertion loop is the number of value-present
entries whose insert fails. -/
theorem storeMeasurements_errs (insertOk : InsertOk) (userId recordId now : Nat) :
    ∀ entries : List MeasEntry,
      (storeMeasurements insertOk userId recordId now entries).2 =
        (entries.filter (fun e => e.value.isSome && !insertOk e)).length := by
  intro entries
  induction entries with
  | nil => rfl
  | cons e rest ih =>
    cases hv : e.value with
    | none => simp [storeMeasurements, hv, List.filter_cons, ih]
    | some v =>
      by_cases hok : insertOk e
      · simp [storeMeasurements, hv, hok, List.filter_cons, ih]
      · simp [storeMeasurements, hv, hok, List.filter_cons, ih]

/-- A stored row carries the record id it was inserted for. -/
theorem storedRowOf_record_id (insertOk : InsertOk) (userId recordId now : Nat)
    (e : MeasEntry) (m : Measurement)
    (h : storedRowOf insertOk userId recordId now e = some m) :
    m.record_id = recordId := by
  unfold storedRowOf at h
  cases hv : e.value with
  | none => rw [hv] at h; simp at h
  | some v =>
    rw [hv] at h
    dsimp only at h
    by_cases hok : insertOk e
    · rw [if_pos hok] at h
      cases h
      rfl
    · rw [if_neg hok] at h
      simp at h

/-- A stored row's numeric value comes from its entry; a `null` value yields
no row at all. -/
theorem storedRowOf_none (insertOk : InsertOk) (userId recordId now : Nat)
    (e : MeasEntry) (h : e.value = none) :
    storedRowOf insertOk userId recordId now e = none := by
  unfold storedRowOf
  rw [h]

/-- Selecting a record's rows out of the rows of other records gives
nothing. -/
theorem filter_sel_of_filter_del {α : Type} (f : α → Nat) (rid : Nat)
    (l : List α) :
    (l.filter (fun m => f m != rid)).filter (fun m => f m == rid) = [] := by
  rw [List.filter_eq_nil_iff]
  intro a ha
  have := (List.mem_filter.mp ha).2
  simp only [bne_iff_ne, ne_eq] at this
  simp [this]

/-- Filtering away a record's rows twice is the same as once. -/
theorem filter_del_idem {α : Type} (f : α → Nat) (rid : Nat) (l : List α) :
    (l.filter (fun m => f m != rid)).filter (fun m => f m != rid) =
      l.filter (fun m => f m != rid) := by
  rw [List.filter_eq_self]
  intro a ha
  exact (List.mem_filter.mp ha).2

/-- All fields of a record other than the analysis flag survive
`markAnalyzed`. -/
theorem markAnalyzed_id (rid : Nat) (r : PdfRecord) :
    (markAnalyzed rid r).id = r.id := by
  unfold markAnalyzed; split <;> rfl

theorem markAnalyzed_user_id (rid : Nat) (r : PdfRecord) :
    (markAnalyzed rid r).user_id = r.user_id := by
  unfold markAnalyzed; split <;> rfl

theorem markAnalyzed_upload_date (rid : Nat) (r : PdfRecord) :
    (markAnalyzed rid r).upload_date = r.upload_date := by
  unfold markAnalyzed; split <;> rfl

theorem markAnalyzed_record_type (rid : Nat) (r : PdfRecord) :
    (markAnalyzed rid r).record_type = r.record_type := by
  unfold markAnalyzed; split <;> rfl

theorem markAnalyzed_extracted_data (rid : Nat) (r : PdfRecord) :
    (markAnalyzed rid r).extracted_data = r.extracted_data := by
  unfold markAnalyzed; split <;> rfl

theorem markAnalyzed_original_name (rid : Nat) (r : PdfRecord) :
    (markAnalyzed rid r).original_name = r.original_name := by
  unfold markAnalyzed; split <;> rfl

/-- Filtering a predicate that ignores the analysis flag commutes with
marking. -/
theorem filter_map_markAnalyzed (l : List PdfRecord) (rid : Nat)
    (p : PdfRecord → Bool) (hp : ∀ r, p (markAnalyzed rid r) = p r) :
    (l.map (markAnalyzed rid)).filter p =
      (l.filter p).map (markAnalyzed rid) := by
  rw [List.filter_map]
  congr 1
  apply List.filter_congr
  intro r _
  exact hp r

/-- Filtering the user's other-record rows is unaffected by first deleting
one record's rows. -/
theorem filter_user_del_of_del (lv : List Measurement) (uid rid : Nat) :
    (lv.filter (fun m => m.record_id != rid)).filter
        (fun m => m.user_id == uid && m.record_id != rid) =
      lv.filter (fun m => m.user_id == uid && m.record_id != rid) := by
  induction lv with
  | nil => rfl
  | cons m t ih =>
    by_cases hd : m.record_id != rid
    · by_cases hu : m.user_id == uid
      · simp [List.filter_cons, hd, hu, ih]
      · simp [List.filter_cons, hd, hu, ih]
    · simp [List.filter_cons, hd, ih]

/-- `histEntryOf` only reads a record's upload date and type, so states that
agree on those agree on history entries. -/
theorem histEntryOf_congr (s s' : DBState) (m : Measurement)
    (h1 : (recordById s' m.record_id).map (·.upload_date) =
          (recordById s m.record_id).map (·.upload_date))
    (h2 : (recordById s' m.record_id).map (·.record_type) =
          (recordById s m.record_id).map (·.record_type)) :
    histEntryOf s' m = histEntryOf s m := by
  simp only [histEntryOf]
  rw [h1, h2]

/-- `recordById` on a state whose records were all marked analyzed. -/
theorem recordById_mark (s : DBState) (rid : Nat) (s' : DBState)
    (hpr : s'.pdf_records = s.pdf_records.map (markAnalyzed rid)) (k : Nat) :
    recordById s' k = (recordById s k).map (markAnalyzed rid) := by
  unfold recordById
  rw [hpr, filter_map_markAnalyzed _ _ _ (fun r => by rw [markAnalyzed_id]),
    List.head?_map]

/-- `findRecord` on a state whose records were all marked analyzed. -/
theorem findRecord_mark (s : DBState) (rid : Nat) (s' : DBState)
    (hpr : s'.pdf_records = s.pdf_records.map (markAnalyzed rid)) (k u : Nat) :
    findRecord s' k u = (findRecord s k u).map (markAnalyzed rid) := by
  unfold findRecord
  rw [hpr, filter_map_markAnalyzed _ _ _
    (fun r => by rw [markAnalyzed_id, markAnalyzed_user_id]), List.head?_map]

/-- States that fetch the same other-record rows and the same joined record
columns compute the same trend history. -/
theorem historyFor_congr (s s' : DBState) (uid rid : Nat)
    (hlv : s'.lab_values.filter (fun m => m.user_id == uid && m.record_id != rid) =
           s.lab_values.filter (fun m => m.user_id == uid && m.record_id != rid))
    (hhe : ∀ m : Measurement, histEntryOf s' m = histEntryOf s m) :
    historyFor s' uid rid = historyFor s uid rid := by
  unfold historyFor
  rw [hlv, funext hhe]

/-- The database state after a successful re-analysis of one record. -/
def reanalyzedState (insertOk : InsertOk) (rid uid now : Nat) (a : Analysis)
    (s : DBState) : DBState :=
  { s with
      pdf_records := s.pdf_records.map (markAnalyzed rid),
      lab_values := s.lab_values.filter (fun m => m.record_id != rid) ++
        (a.lab_tests_found ++ a.medical_measurements).filterMap
          (storedRowOf insertOk uid rid now),
      ai_lab_analysis := s.ai_lab_analysis.filter (fun r => r.record_id != rid) ++
        [analysisRowOf uid rid a],
      errorLog := s.errorLog ++ List.replicate
        (((a.lab_tests_found ++ a.medical_measurements).filter
            (fun e => e.value.isSome && !insertOk e)).length)
        "Error inserting measurement" }

/-- A successful run of the re-analysis endpoint: the resulting state and
response in closed form. -/
theorem reanalyze_success_eq (ai : AIFun) (insertOk : InsertOk)
    (rid uid now : Nat) (s : DBState) (rec : PdfRecord) (a : Analysis)
    (hrec : findRecord s rid uid = some rec)
    (hai : ai (rec.extracted_data.take 15000) (historyFor s uid rid) = some a) :
    reanalyzeEndpoint true ai insertOk rid uid now s =
      (reanalyzedState insertOk rid uid now a s,
        .reanalyzed a.lab_tests_found.length a.document_summary) := by
  unfold reanalyzeEndpoint
  rw [hrec]
  dsimp only
  unfold analyzeLabDataWithAI
  dsimp only
  rw [historyFor_congr s
    { s with
        lab_values := s.lab_values.filter (fun m => m.record_id != rid),
        ai_lab_analysis := s.ai_lab_analysis.filter (fun a => a.record_id != rid) }
    uid rid (filter_user_del_of_del s.lab_values uid rid) (fun m => rfl), hai]
  dsimp only
  unfold reanalyzedState
  rw [storeMeasurements_rows, storeMeasurements_errs]
  rfl

/-- Selecting one record's measurement rows after deleting them gives
nothing. -/
theorem lv_sel_of_del (l : List Measurement) (rid : Nat) :
    (l.filter (fun m => m.record_id != rid)).filter
      (fun m => m.record_id == rid) = [] := by
  rw [List.filter_eq_nil_iff]
  intro m hm
  have h2 := (List.mem_filter.mp hm).2
  simp only [bne_iff_ne, ne_eq] at h2
  simp [h2]

/-- Deleting one record's measurement rows is idempotent. -/
theorem lv_del_of_del (l : List Measurement) (rid : Nat) :
    (l.filter (fun m => m.record_id != rid)).filter
        (fun m => m.record_id != rid) =
      l.filter (fun m => m.record_id != rid) :=
  List.filter_eq_self.mpr (fun _ hm => (List.mem_filter.mp hm).2)

/-- Selecting one record's analysis rows after deleting them gives nothing. -/
theorem al_sel_of_del (l : List AnalysisRow) (rid : Nat) :
    (l.filter (fun r => r.record_id != rid)).filter
      (fun r => r.record_id == rid) = [] := by
  rw [List.filter_eq_nil_iff]
  intro r hr
  have h2 := (List.mem_filter.mp hr).2
  simp only [bne_iff_ne, ne_eq] at h2
  simp [h2]

/-- Every row of a re-analysis batch carries the re-analyzed record's id. -/
theorem mem_newRows_record_id (insertOk : InsertOk) (uid rid now : Nat)
    (entries : List MeasEntry) (m : Measurement)
    (hm : m ∈ entries.filterMap (storedRowOf insertOk uid rid now)) :
    m.record_id = rid := by
  obtain ⟨e, _, hse⟩ := List.mem_filterMap.mp hm
  exact storedRowOf_record_id insertOk uid rid now e m hse

/-- A re-analysis batch survives selecting the record's rows. -/
theorem newRows_filter_sel (insertOk : InsertOk) (uid rid now : Nat)
    (entries : List MeasEntry) :
    (entries.filterMap (storedRowOf insertOk uid rid now)).filter
        (fun m => m.record_id == rid) =
      entries.filterMap (storedRowOf insertOk uid rid now) :=
  List.filter_eq_self.mpr (fun m hm => by
    simp [mem_newRows_record_id insertOk uid rid now entries m hm])

/-- A re-analysis batch is wiped out by deleting the record's rows. -/
theorem newRows_filter_del (insertOk : InsertOk) (uid rid now : Nat)
    (entries : List MeasEntry) :
    (entries.filterMap (storedRowOf insertOk uid rid now)).filter
        (fun m => m.record_id != rid) = [] :=
  List.filter_eq_nil_iff.mpr (fun m hm => by
    simp [mem_newRows_record_id insertOk uid rid now entries m hm])

/-- A re-analysis batch contributes nothing to another query on other
records. -/
theorem newRows_filter_user_del (insertOk : InsertOk) (uid rid now uid2 : Nat)
    (entries : List MeasEntry) :
    (entries.filterMap (storedRowOf insertOk uid rid now)).filter
        (fun m => m.user_id == uid2 && m.record_id != rid) = [] :=
  List.filter_eq_nil_iff.mpr (fun m hm => by
    simp [mem_newRows_record_id insertOk uid rid now entries m hm])

/-- The measurement rows of the re-analyzed record after a successful run are
exactly the newly stored batch. -/
theorem labValuesOfRecord_reanalyzed (insertOk : InsertOk)
    (rid uid now : Nat) (a : Analysis) (s : DBState) :
    labValuesOfRecord (reanalyzedState insertOk rid uid now a s) rid =
      (a.lab_tests_found ++ a.medical_measurements).filterMap
        (storedRowOf insertOk uid rid now) := by
  show ((s.lab_values.filter (fun m => m.record_id != rid)) ++ _).filter
      (fun m => m.record_id == rid) = _
  rw [List.filter_append, lv_sel_of_del, List.nil_append, newRows_filter_sel]

/-- The analysis rows of the re-analyzed record after a successful run are
exactly the one new row. -/
theorem analysesOfRecord_reanalyzed (insertOk : InsertOk)
    (rid uid now : Nat) (a : Analysis) (s : DBState) :
    analysesOfRecord (reanalyzedState insertOk rid uid now a s) rid =
      [analysisRowOf uid rid a] := by
  show ((s.ai_lab_analysis.filter (fun r => r.record_id != rid)) ++ _).filter
      (fun r => r.record_id == rid) = _
  rw [List.filter_append, al_sel_of_del, List.nil_append]
  simp [analysisRowOf]

/-- The trend history is untouched by re-analyzing the record it excludes. -/
theorem historyFor_reanalyzedState (insertOk : InsertOk)
    (rid uid now : Nat) (a : Analysis) (s : DBState) (uid2 : Nat) :
    historyFor (reanalyzedState insertOk rid uid now a s) uid2 rid =
      historyFor s uid2 rid := by
  apply historyFor_congr
  · show ((s.lab_values.filter (fun m => m.record_id != rid)) ++ _).filter
        (fun m => m.user_id == uid2 && m.record_id != rid) = _
    rw [List.filter_append, filter_user_del_of_del, newRows_filter_user_del,
      List.append_nil]
  · intro m
    apply histEntryOf_congr
    · rw [recordById_mark s rid _ rfl, Option.map_map]
      exact congrArg (fun g => Option.map g (recordById s m.record_id))
        (funext (fun r => markAnalyzed_upload_date rid r))
    · rw [recordById_mark s rid _ rfl, Option.map_map]
      exact congrArg (fun g => Option.map g (recordById s m.record_id))
        (funext (fun r => markAnalyzed_record_type rid r))

/-- How many rows a batch stores does not depend on the extraction
timestamp. -/
theorem newRows_length_now (insertOk : InsertOk) (uid rid n₁ n₂ : Nat) :
    ∀ entries : List MeasEntry,
      (entries.filterMap (storedRowOf insertOk uid rid n₁)).length =
        (entries.filterMap (storedRowOf insertOk uid rid n₂)).length := by
  intro entries
  induction entries with
  | nil => rfl
  | cons e rest ih =>
    cases hv : e.value with
    | none => simp [List.filterMap_cons, storedRowOf, hv, ih]
    | some v =>
      by_cases hok : insertOk e
      · simp [List.filterMap_cons, storedRowOf, hv, hok, ih]
      · simp [List.filterMap_cons, storedRowOf, hv, hok, ih]

/-- A re-analysis run with no API key configured: rows already deleted, 400
response, records table untouched. -/
theorem reanalyze_nokey_eq (ai : AIFun) (insertOk : InsertOk)
    (rid uid now : Nat) (s : DBState) (rec : PdfRecord)
    (hrec : findRecord s rid uid = some rec) :
    reanalyzeEndpoint false ai insertOk rid uid now s =
      ({ s with
          lab_values := s.lab_values.filter (fun m => m.record_id != rid),
          ai_lab_analysis := s.ai_lab_analysis.filter (fun r => r.record_id != rid) },
        .apiKeyMissing) := by
  unfold reanalyzeEndpoint
  rw [hrec]
  rfl

/-- A re-analysis run whose inference call or parsing fails: rows already
deleted, success-shaped response with count 0, records table untouched. -/
theorem reanalyze_aifail_eq (ai : AIFun) (insertOk : InsertOk)
    (rid uid now : Nat) (s : DBState) (rec : PdfRecord)
    (hrec : findRecord s rid uid = some rec)
    (hai : ∀ t h, ai t h = none) :
    reanalyzeEndpoint true ai insertOk rid uid now s =
      ({ s with
          lab_values := s.lab_values.filter (fun m => m.record_id != rid),
          ai_lab_analysis := s.ai_lab_analysis.filter (fun r => r.record_id != rid) },
        .reanalyzed 0 none) := by
  unfold reanalyzeEndpoint
  rw [hrec]
  dsimp only
  unfold analyzeLabDataWithAI
  dsimp only
  rw [hai]
  rfl

/-! ## Claim C6: response repair -/

/-- C6: for every raw inference response with a first `{` at index `p` and a
last `}` at index `q` after it, the structured-extraction client parses
exactly the substring from `p` through `q`; in particular the response
`Sure! {"document_summary":"ok"}` is repaired to `{"document_summary":"ok"}`,
on which JSON parsing succeeds. -/
theorem c6_response_repair (s : List Char) (p q : Nat)
    (hp : firstIdxOf '{' s = some p) (hq : lastIdxOf '}' s = some q)
    (hpq : p < q) :
    cleanResponse s = (s.drop p).take (q - p + 1) ∧
    cleanResponse ("Sure! \x7b\"document_summary\":\"ok\"\x7d".toList) =
      "\x7b\"document_summary\":\"ok\"\x7d".toList ∧
    (jsonParse "\x7b\"document_summary\":\"ok\"\x7d").isSome = true :=
  ⟨cleanResponse_eq_slice s p q hp hq hpq, by decide, by decide⟩

/-- Witness for C6 at the spec's own scenario string. -/
theorem c6_response_repair_witness :
    cleanResponse ("Sure! \x7b\"document_summary\":\"ok\"\x7d".toList) =
      (("Sure! \x7b\"document_summary\":\"ok\"\x7d".toList).drop 6).take 25 :=
  (c6_response_repair "Sure! \x7b\"document_summary\":\"ok\"\x7d".toList 6 30
    (by decide) (by decide) (by decide)).1

/-! ## Claim C7: document classifier -/

/-- C7: the classifier returns true exactly when the text contains, by
case-insensitive substring search, at least one lab-specific keyword or at
least two distinct general-medical keywords; in particular a text containing
two general-medical keywords and no lab-specific keyword classifies true, and
a text containing neither classifies false. -/
theorem c7_detectLabReport_keyword_rule :
    (∀ text : String, detectLabReport text = true ↔
      ((∃ kw ∈ labKeywords, includesCI text kw = true) ∨
       (∃ k₁ ∈ medicalKeywords, ∃ k₂ ∈ medicalKeywords,
          k₁ ≠ k₂ ∧ includesCI text k₁ = true ∧ includesCI text k₂ = true))) ∧
    detectLabReport "ecg and mri" = true ∧
    (∀ kw ∈ labKeywords, includesCI "ecg and mri" kw = false) ∧
    detectLabReport "hello world" = false := by
  refine ⟨?_, by decide, by decide, by decide⟩
  intro text
  simp only [detectLabReport, Bool.or_eq_true, decide_eq_true_eq]
  rw [one_le_length_filter_iff, two_le_length_filter_iff _ _ (by decide)]

/-! ## Concrete instances used by witnesses and counterexamples -/

/-- A concrete user. -/
def exUser : UserRow := { id := 1, username := "alice", role := "user" }

/-- A concrete record owned by `exUser`. -/
def exRecord : PdfRecord :=
  { id := 1, user_id := 1, uploaded_by := 1, filename := "f.pdf",
    original_name := "report.pdf", file_size := 100, upload_date := 0,
    record_type := "Blood Test", extracted_data := "heart rate 72 bpm",
    is_lab_report := true, lab_data_extracted := false }

/-- A concrete database state with one user and one record. -/
def exState : DBState :=
  { users := [exUser], pdf_records := [exRecord], lab_values := [],
    ai_lab_analysis := [], nextRecordId := 2, errorLog := [] }

/-- An entry whose numeric value is absent. -/
def exEntryNull : MeasEntry :=
  { name := "Sodium", category := "Chemistry", value := none, unit := "mmol/L",
    reference_range := "135-145", is_abnormal := false, date := none,
    trend := "unknown" }

/-- An entry with a numeric value whose insert succeeds. -/
def exEntryGood : MeasEntry :=
  { name := "Heart Rate", category := "Cardiac", value := some 72,
    unit := "bpm", reference_range := "60-100", is_abnormal := false,
    date := some 10, trend := "stable" }

/-- An entry with a numeric value whose insert will fail. -/
def exEntryBad : MeasEntry :=
  { name := "Lead", category := "Metals", value := some 3, unit := "ug/dL",
    reference_range := "<5", is_abnormal := false, date := none,
    trend := "unknown" }

/-- An analysis with no lab tests and one other measurement. -/
def exAnalysis : Analysis :=
  { document_summary := some "ok", lab_tests_found := [],
    medical_measurements := [exEntryGood], overall_risk := some "low" }

/-- A deterministic inference stub returning `exAnalysis`. -/
def exAI : AIFun := fun _ _ => some exAnalysis

/-- An inference stub that always fails. -/
def exAIFail : AIFun := fun _ _ => none

/-- Inserts that always succeed. -/
def exInsertOk : InsertOk := fun _ => true

/-- An analysis mixing a null entry, good entries and a failing entry. -/
def exAnalysis8 : Analysis :=
  { document_summary := some "ok",
    lab_tests_found := [exEntryNull, exEntryGood],
    medical_measurements := [exEntryBad, exEntryGood],
    overall_risk := some "low" }

/-- A deterministic inference stub returning `exAnalysis8`. -/
def exAI8 : AIFun := fun _ _ => some exAnalysis8

/-- Inserts that fail exactly on the `Lead` entry. -/
def exInsertOk8 : InsertOk := fun e => e.name != "Lead"

/-! ## Claim C1: re-analysis replaces, idempotence -/

/-- C1: after a successful run of the re-analysis endpoint, the record's
stored Measurement rows are exactly the batch produced from the newest
Analysis — never a union of old and new rows; a second run with the same
deterministic inference function again stores exactly the newest batch, of
the same cardinality, and it is duplicate-free whenever the batch itself
is. -/
theorem c1_reanalysis_replaces_and_idempotent (ai : AIFun) (insertOk : InsertOk)
    (rid uid now₁ now₂ : Nat) (s : DBState) (rec : PdfRecord) (a : Analysis)
    (hrec : findRecord s rid uid = some rec)
    (hai : ai (rec.extracted_data.take 15000) (historyFor s uid rid) = some a) :
    labValuesOfRecord (reanalyzeEndpoint true ai insertOk rid uid now₁ s).1 rid =
      (a.lab_tests_found ++ a.medical_measurements).filterMap
        (storedRowOf insertOk uid rid now₁) ∧
    labValuesOfRecord
        (reanalyzeEndpoint true ai insertOk rid uid now₂
          (reanalyzeEndpoint true ai insertOk rid uid now₁ s).1).1 rid =
      (a.lab_tests_found ++ a.medical_measurements).filterMap
        (storedRowOf insertOk uid rid now₂) ∧
    (labValuesOfRecord
        (reanalyzeEndpoint true ai insertOk rid uid now₂
          (reanalyzeEndpoint true ai insertOk rid uid now₁ s).1).1 rid).length =
      (labValuesOfRecord
        (reanalyzeEndpoint true ai insertOk rid uid now₁ s).1 rid).length ∧
    (((a.lab_tests_found ++ a.medical_measurements).filterMap
        (storedRowOf insertOk uid rid now₂)).Nodup →
      (labValuesOfRecord
        (reanalyzeEndpoint true ai insertOk rid uid now₂
          (reanalyzeEndpoint true ai insertOk rid uid now₁ s).1).1 rid).Nodup) := by
  have h1 := reanalyze_success_eq ai insertOk rid uid now₁ s rec a hrec hai
  have hfind2 : findRecord (reanalyzedState insertOk rid uid now₁ a s) rid uid =
      some (markAnalyzed rid rec) := by
    rw [findRecord_mark s rid _ rfl, hrec]
    rfl
  have hai2 : ai ((markAnalyzed rid rec).extracted_data.take 15000)
      (historyFor (reanalyzedState insertOk rid uid now₁ a s) uid rid) = some a := by
    rw [markAnalyzed_extracted_data, historyFor_reanalyzedState]
    exact hai
  have h2 := reanalyze_success_eq ai insertOk rid uid now₂
    (reanalyzedState insertOk rid uid now₁ a s) (markAnalyzed rid rec) a hfind2 hai2
  rw [h1]
  dsimp only
  rw [h2]
  dsimp only
  refine ⟨labValuesOfRecord_reanalyzed insertOk rid uid now₁ a s,
    labValuesOfRecord_reanalyzed insertOk rid uid now₂ a _, ?_, ?_⟩
  · rw [labValuesOfRecord_reanalyzed, labValuesOfRecord_reanalyzed]
    exact newRows_length_now insertOk uid rid now₂ now₁ _
  · intro h
    rwa [labValuesOfRecord_reanalyzed]

/-- Witness for C1 at a concrete state and deterministic stub. -/
theorem c1_witness :
    labValuesOfRecord (reanalyzeEndpoint true exAI exInsertOk 1 1 5 exState).1 1 =
      (exAnalysis.lab_tests_found ++ exAnalysis.medical_measurements).filterMap
        (storedRowOf exInsertOk 1 1 5) :=
  (c1_reanalysis_replaces_and_idempotent exAI exInsertOk 1 1 5 7 exState
    exRecord exAnalysis rfl rfl).1

/-! ## Claim C2: the count the endpoint returns -/

/-- C2 as amended: a successful re-analysis responds with the length of the
analysis's lab-tests array — null-valued lab-test entries included,
other-measurement entries not counted — while the rows actually stored are
the value-present entries of both arrays. -/
theorem c2_count_is_lab_tests_length (ai : AIFun) (insertOk : InsertOk)
    (rid uid now : Nat) (s : DBState) (rec : PdfRecord) (a : Analysis)
    (hrec : findRecord s rid uid = some rec)
    (hai : ai (rec.extracted_data.take 15000) (historyFor s uid rid) = some a) :
    (reanalyzeEndpoint true ai insertOk rid uid now s).2 =
      .reanalyzed a.lab_tests_found.length a.document_summary ∧
    labValuesOfRecord (reanalyzeEndpoint true ai insertOk rid uid now s).1 rid =
      (a.lab_tests_found ++ a.medical_measurements).filterMap
        (storedRowOf insertOk uid rid now) := by
  rw [reanalyze_success_eq ai insertOk rid uid now s rec a hrec hai]
  exact ⟨rfl, labValuesOfRecord_reanalyzed insertOk rid uid now a s⟩

/-- Witness for C2's amended statement. -/
theorem c2_count_witness :
    (reanalyzeEndpoint true exAI exInsertOk 1 1 5 exState).2 =
      .reanalyzed exAnalysis.lab_tests_found.length exAnalysis.document_summary :=
  (c2_count_is_lab_tests_length exAI exInsertOk 1 1 5 exState exRecord
    exAnalysis rfl rfl).1

/-- Counterexample to C2 as stated: with one stored measurement coming from
the other-measurements array and an empty lab-tests array, the endpoint
stores one new row but reports a count of 0. -/
theorem c2_counterexample :
    (reanalyzeEndpoint true exAI exInsertOk 1 1 5 exState).2 =
      ReanalyzeResponse.reanalyzed 0 (some "ok") ∧
    (labValuesOfRecord (reanalyzeEndpoint true exAI exInsertOk 1 1 5 exState).1
        1).length = 1 ∧
    (0 : Nat) ≠ 1 := by
  rw [reanalyze_success_eq exAI exInsertOk 1 1 5 exState exRecord exAnalysis rfl rfl]
  refine ⟨rfl, ?_, by decide⟩
  rw [labValuesOfRecord_reanalyzed]
  rfl

/-! ## Claim C3: failure paths of re-analysis -/

/-- C3: when re-analysis of a caller-owned record fails — no API key
configured, or the inference call or parsing fails — the record's old
Measurement and Analysis rows are already deleted and are not restored, the
records table (hence the analysis-completed flag) is untouched, and on an
inference/parse failure the endpoint still answers with the success-shaped
response carrying a count of 0. -/
theorem c3_failure_leaves_rows_deleted (hasKey : Bool) (ai : AIFun)
    (insertOk : InsertOk) (rid uid now : Nat) (s : DBState) (rec : PdfRecord)
    (hrec : findRecord s rid uid = some rec)
    (hfail : hasKey = false ∨ ∀ t h, ai t h = none) :
    labValuesOfRecord (reanalyzeEndpoint hasKey ai insertOk rid uid now s).1 rid = [] ∧
    analysesOfRecord (reanalyzeEndpoint hasKey ai insertOk rid uid now s).1 rid = [] ∧
    (reanalyzeEndpoint hasKey ai insertOk rid uid now s).1.pdf_records =
      s.pdf_records ∧
    (hasKey = true →
      (reanalyzeEndpoint hasKey ai insertOk rid uid now s).2 = .reanalyzed 0 none) ∧
    (hasKey = false →
      (reanalyzeEndpoint hasKey ai insertOk rid uid now s).2 = .apiKeyMissing) := by
  cases hasKey with
  | false =>
    rw [reanalyze_nokey_eq ai insertOk rid uid now s rec hrec]
    exact ⟨lv_sel_of_del s.lab_values rid, al_sel_of_del s.ai_lab_analysis rid,
      rfl, fun h => absurd h (by simp), fun _ => rfl⟩
  | true =>
    rcases hfail with hfk | hai
    · exact absurd hfk (by simp)
    · rw [reanalyze_aifail_eq ai insertOk rid uid now s rec hrec hai]
      exact ⟨lv_sel_of_del s.lab_values rid, al_sel_of_del s.ai_lab_analysis rid,
        rfl, fun _ => rfl, fun h => absurd h (by simp)⟩

/-- Witness for C3 with an always-failing inference stub. -/
theorem c3_failure_witness :
    labValuesOfRecord (reanalyzeEndpoint true exAIFail exInsertOk 1 1 5 exState).1 1 = [] ∧
    (reanalyzeEndpoint true exAIFail exInsertOk 1 1 5 exState).2 =
      ReanalyzeResponse.reanalyzed 0 none := by
  have h := c3_failure_leaves_rows_deleted true exAIFail exInsertOk 1 1 5 exState
    exRecord rfl (Or.inr (fun _ _ => rfl))
  exact ⟨h.1, h.2.2.2.1 rfl⟩

/-! ## Claim C8: per-entry normalization -/

/-- C8: normalization stores exactly the value-present entries across the
lab-tests and other-measurements arrays (a null value yields no row at all,
so nothing is stored as zero); a failing insert of one entry does not abort
the inserts of the other entries; and every failed insert adds one entry to
the error log, so skips are counted, not dropped without trace. -/
theorem c8_normalization_per_entry (ai : AIFun) (insertOk : InsertOk)
    (text : String) (rid uid now : Nat) (s : DBState) (a : Analysis)
    (hai : ai (text.take 15000) (historyFor s uid rid) = some a) :
    (analyzeLabDataWithAI ai insertOk text rid uid now s).1.lab_values =
      s.lab_values ++ (a.lab_tests_found ++ a.medical_measurements).filterMap
        (storedRowOf insertOk uid rid now) ∧
    (∀ e : MeasEntry, e.value = none →
      storedRowOf insertOk uid rid now e = none) ∧
    (∀ e ∈ a.lab_tests_found ++ a.medical_measurements, ∀ v : Int,
      e.value = some v → insertOk e = true →
      measurementRow uid rid now e v ∈
        (analyzeLabDataWithAI ai insertOk text rid uid now s).1.lab_values) ∧
    (analyzeLabDataWithAI ai insertOk text rid uid now s).1.errorLog =
      s.errorLog ++ List.replicate
        (((a.lab_tests_found ++ a.medical_measurements).filter
            (fun e => e.value.isSome && !insertOk e)).length)
        "Error inserting measurement" := by
  unfold analyzeLabDataWithAI
  dsimp only
  rw [hai]
  dsimp only
  rw [storeMeasurements_rows, storeMeasurements_errs]
  refine ⟨rfl, fun e he => storedRowOf_none insertOk uid rid now e he, ?_, rfl⟩
  intro e he v hv hok
  apply List.mem_append_right
  apply List.mem_filterMap.mpr
  refine ⟨e, he, ?_⟩
  unfold storedRowOf
  rw [hv]
  dsimp only
  rw [if_pos hok]

/-- Witness for C8 with a batch holding a null entry, two good entries and
one entry whose insert fails. -/
theorem c8_normalization_witness :
    (analyzeLabDataWithAI exAI8 exInsertOk8 "text" 1 1 5 exState).1.errorLog =
      exState.errorLog ++ List.replicate
        (((exAnalysis8.lab_tests_found ++ exAnalysis8.medical_measurements).filter
            (fun e => e.value.isSome && !exInsertOk8 e)).length)
        "Error inserting measurement" :=
  (c8_normalization_per_entry exAI8 exInsertOk8 "text" 1 1 5 exState
    exAnalysis8 rfl).2.2.2

/-! ## Claim C5: deletion cascades -/

/-- Every measurement row references an existing record row. -/
abbrev measRefsIntact (s : DBState) : Prop :=
  ∀ m ∈ s.lab_values, ∃ r ∈ s.pdf_records, r.id = m.record_id

/-- Every analysis row references an existing record row. -/
abbrev analysisRefsIntact (s : DBState) : Prop :=
  ∀ a ∈ s.ai_lab_analysis, ∃ r ∈ s.pdf_records, r.id = a.record_id

/-- Selecting one record's row after deleting it gives nothing. -/
theorem pr_sel_of_del (l : List PdfRecord) (rid : Nat) :
    (l.filter (fun r => r.id != rid)).filter (fun r => r.id == rid) = [] := by
  rw [List.filter_eq_nil_iff]
  intro r hr
  have h2 := (List.mem_filter.mp hr).2
  simp only [bne_iff_ne, ne_eq] at h2
  simp [h2]

/-- After a record's measurement and analysis rows are deleted, deleting the
record row itself violates no FOREIGN KEY. -/
theorem fk_unblocked_after_cascade (s : DBState) (rid : Nat) :
    recordDeleteFkBlocked
      { s with
          lab_values := s.lab_values.filter (fun m => m.record_id != rid),
          ai_lab_analysis := s.ai_lab_analysis.filter (fun a => a.record_id != rid) }
      (fun r => r.id == rid) = false := by
  unfold recordDeleteFkBlocked
  dsimp only
  rw [Bool.or_eq_false_iff]
  constructor
  · rw [List.any_eq_false]
    intro m hm
    have hm2 : ¬(m.record_id = rid) := by
      simpa [bne_iff_ne] using (List.mem_filter.mp hm).2
    simp only [Bool.not_eq_true, List.any_eq_false]
    intro r _
    simp only [Bool.not_eq_true, Bool.and_eq_false_iff, beq_eq_false_iff_ne, ne_eq]
    by_cases h1 : r.id = rid
    · right
      rw [h1]
      exact fun hc => hm2 hc.symm
    · left
      exact h1
  · rw [List.any_eq_false]
    intro a ha
    have ha2 : ¬(a.record_id = rid) := by
      simpa [bne_iff_ne] using (List.mem_filter.mp ha).2
    simp only [Bool.not_eq_true, List.any_eq_false]
    intro r _
    simp only [Bool.not_eq_true, Bool.and_eq_false_iff, beq_eq_false_iff_ne, ne_eq]
    by_cases h1 : r.id = rid
    · right
      rw [h1]
      exact fun hc => ha2 hc.symm
    · left
      exact h1

/-- What a false FOREIGN KEY check on a `pdf_records` DELETE guarantees. -/
theorem not_blocked_spec (s : DBState) (doomed : PdfRecord → Bool)
    (h : recordDeleteFkBlocked s doomed = false) :
    (∀ m ∈ s.lab_values, ∀ r ∈ s.pdf_records,
      doomed r = true → r.id ≠ m.record_id) ∧
    (∀ a ∈ s.ai_lab_analysis, ∀ r ∈ s.pdf_records,
      doomed r = true → r.id ≠ a.record_id) := by
  unfold recordDeleteFkBlocked at h
  rw [Bool.or_eq_false_iff] at h
  obtain ⟨h1, h2⟩ := h
  rw [List.any_eq_false] at h1 h2
  constructor
  · intro m hm r hr hd hid
    have := h1 m hm
    simp only [Bool.not_eq_true, List.any_eq_false] at this
    have hr2 := this r hr
    rw [hd, hid] at hr2
    simp at hr2
  · intro a ha r hr hd hid
    have := h2 a ha
    simp only [Bool.not_eq_true, List.any_eq_false] at this
    have hr2 := this r hr
    rw [hd, hid] at hr2
    simp at hr2

/-- A found record is deleted together with its measurement and analysis
rows; the FOREIGN KEY check passes. -/
theorem deleteRecord_found_eq (rid uid : Nat) (s : DBState) (rec : PdfRecord)
    (hrec : findRecord s rid uid = some rec) :
    deleteRecordEndpoint rid uid s =
      ({ s with
          lab_values := s.lab_values.filter (fun m => m.record_id != rid),
          ai_lab_analysis := s.ai_lab_analysis.filter (fun a => a.record_id != rid),
          pdf_records := s.pdf_records.filter (fun r => r.id != rid) },
        .deleted) := by
  unfold deleteRecordEndpoint
  rw [hrec]
  dsimp only
  rw [fk_unblocked_after_cascade]
  rfl

/-- The admin variant of `deleteRecord_found_eq`. -/
theorem adminDeleteRecord_found_eq (rid : Nat) (s : DBState) (rec : PdfRecord)
    (hrec : recordById s rid = some rec) :
    adminDeleteRecordEndpoint rid s =
      ({ s with
          lab_values := s.lab_values.filter (fun m => m.record_id != rid),
          ai_lab_analysis := s.ai_lab_analysis.filter (fun a => a.record_id != rid),
          pdf_records := s.pdf_records.filter (fun r => r.id != rid) },
        .deleted) := by
  unfold adminDeleteRecordEndpoint
  rw [hrec]
  dsimp only
  rw [fk_unblocked_after_cascade]
  rfl

/-- The state after a full record deletion keeps measurement integrity. -/
theorem cascadeState_meas_intact (s : DBState) (rid : Nat)
    (h : measRefsIntact s) :
    measRefsIntact
      { s with
          lab_values := s.lab_values.filter (fun m => m.record_id != rid),
          ai_lab_analysis := s.ai_lab_analysis.filter (fun a => a.record_id != rid),
          pdf_records := s.pdf_records.filter (fun r => r.id != rid) } := by
  intro m hm
  have hm2 := List.mem_filter.mp hm
  obtain ⟨r, hr, hid⟩ := h m hm2.1
  have hne : m.record_id ≠ rid := by
    simpa [bne_iff_ne] using hm2.2
  exact ⟨r, List.mem_filter.mpr ⟨hr, by simp [hid, hne]⟩, hid⟩

/-- The state after a full record deletion keeps analysis integrity. -/
theorem cascadeState_analysis_intact (s : DBState) (rid : Nat)
    (h : analysisRefsIntact s) :
    analysisRefsIntact
      { s with
          lab_values := s.lab_values.filter (fun m => m.record_id != rid),
          ai_lab_analysis := s.ai_lab_analysis.filter (fun a => a.record_id != rid),
          pdf_records := s.pdf_records.filter (fun r => r.id != rid) } := by
  intro a ha
  have ha2 := List.mem_filter.mp ha
  obtain ⟨r, hr, hid⟩ := h a ha2.1
  have hne : a.record_id ≠ rid := by
    simpa [bne_iff_ne] using ha2.2
  exact ⟨r, List.mem_filter.mpr ⟨hr, by simp [hid, hne]⟩, hid⟩

/-- Admin user deletion keeps measurement integrity: either it stops at a
FOREIGN KEY violation, or every surviving measurement's record survived. -/
theorem adminDeleteUser_meas_intact (uid : Nat) (s : DBState)
    (h : measRefsIntact s) :
    measRefsIntact (adminDeleteUserEndpoint uid s).1 := by
  unfold adminDeleteUserEndpoint
  dsimp only
  split
  · intro m hm
    exact h m (List.mem_filter.mp hm).1
  · rename_i hb1
    have hspec := (not_blocked_spec _ _ (by simpa using hb1)).1
    split
    · intro m hm
      have hm2 := List.mem_filter.mp hm
      obtain ⟨r, hr, hid⟩ := h m hm2.1
      have hru : ¬(r.user_id = uid) := fun hc =>
        hspec m hm r hr (by simp [hc]) hid
      exact ⟨r, List.mem_filter.mpr ⟨hr, by simp [hru]⟩, hid⟩
    · intro m hm
      have hm2 := List.mem_filter.mp hm
      obtain ⟨r, hr, hid⟩ := h m hm2.1
      have hru : ¬(r.user_id = uid) := fun hc =>
        hspec m hm r hr (by simp [hc]) hid
      exact ⟨r, List.mem_filter.mpr ⟨hr, by simp [hru]⟩, hid⟩

/-- Admin user deletion keeps analysis integrity: the analysis rows are
never touched, and the FOREIGN KEY check stops any record deletion that
would leave one dangling. -/
theorem adminDeleteUser_analysis_intact (uid : Nat) (s : DBState)
    (h : analysisRefsIntact s) :
    analysisRefsIntact (adminDeleteUserEndpoint uid s).1 := by
  unfold adminDeleteUserEndpoint
  dsimp only
  split
  · intro a ha
    exact h a ha
  · rename_i hb1
    have hspec := (not_blocked_spec _ _ (by simpa using hb1)).2
    split
    · intro a ha
      obtain ⟨r, hr, hid⟩ := h a ha
      have hru : ¬(r.user_id = uid) := fun hc =>
        hspec a ha r hr (by simp [hc]) hid
      exact ⟨r, List.mem_filter.mpr ⟨hr, by simp [hru]⟩, hid⟩
    · intro a ha
      obtain ⟨r, hr, hid⟩ := h a ha
      have hru : ¬(r.user_id = uid) := fun hc =>
        hspec a ha r hr (by simp [hc]) hid
      exact ⟨r, List.mem_filter.mpr ⟨hr, by simp [hru]⟩, hid⟩

/-- A concrete stored measurement row for `exRecord`. -/
def exMeasRow : Measurement :=
  { user_id := 1, record_id := 1, test_name := "Heart Rate",
    test_category := "Cardiac", value := 72, unit := "bpm",
    reference_range := "60-100", is_abnormal := false, test_date := some 10,
    extraction_date := 5, confidence_score := 9 }

/-- A concrete stored analysis row for `exRecord`. -/
def exAnalysisRow : AnalysisRow := analysisRowOf 1 1 exAnalysis

/-- A concrete state with one user owning one record, one measurement and one
analysis. -/
def exState5 : DBState :=
  { users := [exUser], pdf_records := [exRecord], lab_values := [exMeasRow],
    ai_lab_analysis := [exAnalysisRow], nextRecordId := 2, errorLog := [] }

/-- C5: owner-initiated and administrator deletion of a single Record delete
the Record's Measurement and Analysis rows and then the Record row (the
FOREIGN KEY checks pass), and every deletion endpoint preserves referential
integrity from Measurements and Analyses to Records — no Analysis ever
dangles.  Administrator deletion of a user, however, never deletes
`ai_lab_analysis` rows: at the failing input (user 1 owning record 1 with
one stored measurement and one analysis row) the `DELETE FROM pdf_records`
violates the `ai_lab_analysis.record_id` FOREIGN KEY, the handler answers
the 500 `Database error`, the user, record and analysis rows survive, and
the user's measurements are already deleted and not restored — the cascade
the claim describes never completes. -/
theorem c5_deletion_behavior :
    (∀ (s : DBState) (rid uid : Nat), findRecord s rid uid ≠ none →
      (deleteRecordEndpoint rid uid s).2 = DeleteResponse.deleted ∧
      labValuesOfRecord (deleteRecordEndpoint rid uid s).1 rid = [] ∧
      analysesOfRecord (deleteRecordEndpoint rid uid s).1 rid = [] ∧
      recordById (deleteRecordEndpoint rid uid s).1 rid = none) ∧
    (∀ (s : DBState) (rid : Nat), recordById s rid ≠ none →
      (adminDeleteRecordEndpoint rid s).2 = DeleteResponse.deleted ∧
      labValuesOfRecord (adminDeleteRecordEndpoint rid s).1 rid = [] ∧
      analysesOfRecord (adminDeleteRecordEndpoint rid s).1 rid = [] ∧
      recordById (adminDeleteRecordEndpoint rid s).1 rid = none) ∧
    (∀ (s : DBState) (rid uid : Nat),
      (measRefsIntact s → measRefsIntact (deleteRecordEndpoint rid uid s).1) ∧
      (analysisRefsIntact s →
        analysisRefsIntact (deleteRecordEndpoint rid uid s).1) ∧
      (measRefsIntact s → measRefsIntact (adminDeleteRecordEndpoint rid s).1) ∧
      (analysisRefsIntact s →
        analysisRefsIntact (adminDeleteRecordEndpoint rid s).1) ∧
      (measRefsIntact s → measRefsIntact (adminDeleteUserEndpoint uid s).1) ∧
      (analysisRefsIntact s →
        analysisRefsIntact (adminDeleteUserEndpoint uid s).1)) ∧
    (adminDeleteUserEndpoint 1 exState5).2 = DeleteResponse.dbError ∧
    (adminDeleteUserEndpoint 1 exState5).1.pdf_records = exState5.pdf_records ∧
    (adminDeleteUserEndpoint 1 exState5).1.ai_lab_analysis =
      exState5.ai_lab_analysis ∧
    (adminDeleteUserEndpoint 1 exState5).1.users = exState5.users ∧
    (adminDeleteUserEndpoint 1 exState5).1.lab_values = [] := by
  refine ⟨?_, ?_, ?_, by decide, by decide, by decide, by decide, by decide⟩
  · intro s rid uid hf
    cases hfr : findRecord s rid uid with
    | none => exact absurd hfr hf
    | some rec =>
      rw [deleteRecord_found_eq rid uid s rec hfr]
      refine ⟨rfl, lv_sel_of_del s.lab_values rid, al_sel_of_del s.ai_lab_analysis rid, ?_⟩
      show ((s.pdf_records.filter _).filter _).head? = none
      rw [pr_sel_of_del]
      rfl
  · intro s rid hf
    cases hfr : recordById s rid with
    | none => exact absurd hfr hf
    | some rec =>
      rw [adminDeleteRecord_found_eq rid s rec hfr]
      refine ⟨rfl, lv_sel_of_del s.lab_values rid, al_sel_of_del s.ai_lab_analysis rid, ?_⟩
      show ((s.pdf_records.filter _).filter _).head? = none
      rw [pr_sel_of_del]
      rfl
  · intro s rid uid
    refine ⟨?_, ?_, ?_, ?_,
      adminDeleteUser_meas_intact uid s, adminDeleteUser_analysis_intact uid s⟩
    · intro h
      cases hfr : findRecord s rid uid with
      | none =>
        rw [deleteRecordEndpoint, hfr]
        exact h
      | some rec =>
        rw [deleteRecord_found_eq rid uid s rec hfr]
        exact cascadeState_meas_intact s rid h
    · intro h
      cases hfr : findRecord s rid uid with
      | none =>
        rw [deleteRecordEndpoint, hfr]
        exact h
      | some rec =>
        rw [deleteRecord_found_eq rid uid s rec hfr]
        exact cascadeState_analysis_intact s rid h
    · intro h
      cases hfr : recordById s rid with
      | none =>
        rw [adminDeleteRecordEndpoint, hfr]
        exact h
      | some rec =>
        rw [adminDeleteRecord_found_eq rid s rec hfr]
        exact cascadeState_meas_intact s rid h
    · intro h
      cases hfr : recordById s rid with
      | none =>
        rw [adminDeleteRecordEndpoint, hfr]
        exact h
      | some rec =>
        rw [adminDeleteRecord_found_eq rid s rec hfr]
        exact cascadeState_analysis_intact s rid h

/-! ## Claim C10: grouped trends lose and duplicate nothing -/

/-- Pushing a row into a leaf adds exactly that row to the flattening. -/
theorem pushLeaf_flatten (n : String) (m : Measurement) :
    ∀ l : List (String × List Measurement),
      (((pushLeaf n m l).map Prod.snd).flatten).Perm
        (m :: (l.map Prod.snd).flatten) := by
  intro l
  induction l with
  | nil => simp [pushLeaf]
  | cons kv t ih =>
    obtain ⟨k, g⟩ := kv
    by_cases hk : k == n
    · simp only [pushLeaf, hk, if_true, List.map_cons, List.flatten_cons]
      rw [List.append_assoc, List.singleton_append]
      exact List.perm_middle
    · simp only [pushLeaf, hk, if_false, List.map_cons, List.flatten_cons]
      exact ((ih.append_left g).trans List.perm_middle)

/-- Pushing a row into the grouping adds exactly that row to the
flattening. -/
theorem pushGroup_flatten (rt : Option String) (n : String) (m : Measurement) :
    ∀ g : List (Option String × List (String × List Measurement)),
      (flattenGrouped (pushGroup rt n m g)).Perm (m :: flattenGrouped g) := by
  intro g
  induction g with
  | nil => simp [pushGroup, pushLeaf, flattenGrouped]
  | cons kv t ih =>
    obtain ⟨k, sub⟩ := kv
    by_cases hk : k == rt
    · simp only [pushGroup, hk, if_true, flattenGrouped, List.map_cons,
        List.flatten_cons]
      exact ((pushLeaf_flatten n m sub).append_right _)
    · simp only [pushGroup, hk, if_false, flattenGrouped, List.map_cons,
        List.flatten_cons]
      exact ((ih.append_left _).trans List.perm_middle)

/-- Folding rows into the grouping flattens back to the accumulated rows. -/
theorem foldl_pushGroup_flatten (s : DBState) :
    ∀ (rows : List Measurement)
      (g : List (Option String × List (String × List Measurement))),
      (flattenGrouped (rows.foldl
          (fun acc m => pushGroup (recordTypeOf s m) m.test_name m acc) g)).Perm
        (flattenGrouped g ++ rows) := by
  intro rows
  induction rows with
  | nil => intro g; simp
  | cons m rest ih =>
    intro g
    rw [List.foldl_cons]
    refine (ih _).trans ?_
    refine (((pushGroup_flatten (recordTypeOf s m) m.test_name m g).append_right
      rest).trans ?_)
    rw [List.cons_append]
    exact (@List.perm_middle Measurement m (flattenGrouped g) rest).symm

/-- C10: flattening the grouped-trends output yields exactly the same
multiset of Measurements as the flat listing for the same owner — nothing is
lost and nothing is duplicated by the grouping. -/
theorem c10_grouped_flatten_perm :
    ∀ (s : DBState) (uid : Nat),
      (flattenGrouped (groupedTrendsEndpoint s uid)).Perm
        (labValuesListing s uid) := by
  intro s uid
  have h1 := foldl_pushGroup_flatten s (groupedSourceRows s uid) []
  have h2 : (groupedSourceRows s uid).Perm
      (s.lab_values.filter (fun m => m.user_id == uid)) :=
    List.mergeSort_perm _ (groupLe s)
  have h3 : (labValuesListing s uid).Perm
      (s.lab_values.filter (fun m => m.user_id == uid)) :=
    List.mergeSort_perm _ measDescLe
  exact ((h1.trans (by simp [flattenGrouped])).trans h2).trans h3.symm

/-! ## Claim C9: the by-name trend query -/

/-- Is the character special to PostgreSQL `LIKE` — a wildcard or the
default escape character? -/
def likeSpecialChar (c : Char) : Bool := c == '%' || c == '_' || c == '\\'

/-- Does a `LIKE` pattern fragment contain a wildcard or the escape
character? -/
def hasLikeSpecial (l : List Char) : Bool := l.any likeSpecialChar

/-- Unfolding `likeMatch` at a leading `%`. -/
theorem likeMatch_percent (p s : List Char) :
    likeMatch ('%' :: p) s =
      (likeMatch p s ||
        (match s with
         | [] => false
         | _ :: t => likeMatch ('%' :: p) t)) := by
  conv_lhs => rw [likeMatch.eq_def]
  dsimp only
  rw [if_neg (by decide), if_pos rfl]

/-- A bare `%` pattern matches anything. -/
theorem likeMatch_percent_all : ∀ s : List Char, likeMatch ['%'] s = true := by
  intro s
  induction s with
  | nil => rw [likeMatch_percent]; simp [likeMatch]
  | cons b t ih => rw [likeMatch_percent]; simp [ih]

/-- `beginsWith` against the empty string checks emptiness. -/
theorem beginsWith_nil (q : List Char) : beginsWith q [] = q.isEmpty := by
  cases q <;> simp [beginsWith, List.isEmpty]

/-- Unfolding `likeMatch` at a pattern character that is not special. -/
theorem likeMatch_cons_lit (c : Char) (p : List Char) (hc0 : ¬c = '\\')
    (hc1 : ¬c = '%') (hc2 : ¬c = '_') (s : List Char) :
    likeMatch (c :: p) s =
      (match s with
       | [] => false
       | b :: t => c == b && likeMatch p t) := by
  conv_lhs => rw [likeMatch.eq_def]
  dsimp only
  rw [if_neg hc0, if_neg hc1]
  cases s with
  | nil => rfl
  | cons b t =>
    dsimp only
    rw [if_neg hc2]

/-- A fragment free of `LIKE`-special characters, followed by `%`, matches
exactly the strings it begins. -/
theorem likeMatch_lit :
    ∀ q : List Char, hasLikeSpecial q = false →
      ∀ s, likeMatch (q ++ ['%']) s = beginsWith q s := by
  intro q
  induction q with
  | nil =>
    intro _ s
    simp [beginsWith, likeMatch_percent_all]
  | cons c q ih =>
    intro hq s
    simp only [hasLikeSpecial, likeSpecialChar, List.any_cons,
      Bool.or_eq_false_iff, beq_eq_false_iff_ne, ne_eq] at hq
    obtain ⟨⟨⟨hc1, hc2⟩, hc0⟩, hq'⟩ := hq
    rw [List.cons_append, likeMatch_cons_lit c (q ++ ['%']) hc0 hc1 hc2]
    cases s with
    | nil => simp [beginsWith]
    | cons b t =>
      simp [beginsWith, ih (by simpa [hasLikeSpecial] using hq') t]

/-- `LIKE '%q%'` with a `q` free of wildcards and the escape character is
exactly (case-sensitive) substring containment. -/
theorem likeMatch_contains (q : List Char) (hq : hasLikeSpecial q = false) :
    ∀ s, likeMatch ('%' :: (q ++ ['%'])) s = occursIn q s := by
  intro s
  induction s with
  | nil =>
    rw [likeMatch_percent, likeMatch_lit q hq, beginsWith_nil]
    simp [occursIn]
  | cons b t ih =>
    simp only [occursIn]
    rw [show likeMatch ('%' :: (q ++ ['%'])) (b :: t) =
        (likeMatch (q ++ ['%']) (b :: t) || likeMatch ('%' :: (q ++ ['%'])) t)
      from by rw [likeMatch_percent]]
    rw [likeMatch_lit q hq, ih]

/-- `optAscLe` is transitive. -/
theorem optAscLe_trans :
    ∀ x y z : Option Nat, optAscLe x y = true → optAscLe y z = true →
      optAscLe x z = true := by
  intro x y z hxy hyz
  cases x <;> cases y <;> cases z <;> simp_all [optAscLe]
  all_goals omega

/-- `optAscLe` is antisymmetric. -/
theorem optAscLe_antisymm :
    ∀ x y : Option Nat, optAscLe x y = true → optAscLe y x = true → x = y := by
  intro x y h1 h2
  cases x <;> cases y <;> simp_all [optAscLe]
  all_goals omega

/-- The date comparator of the ascending queries is total. -/
theorem measAscLe_total :
    ∀ a b : Measurement, (measAscLe a b || measAscLe b a) = true := by
  intro a b
  unfold measAscLe
  by_cases h : a.test_date = b.test_date
  · rw [if_pos h, if_pos h.symm]
    simp [Nat.le_total]
  · rw [if_neg h, if_neg (fun hc => h hc.symm)]
    cases ha : a.test_date <;> cases hb : b.test_date <;>
      simp_all [optAscLe, Nat.le_total]

/-- The date comparator of the ascending queries is transitive. -/
theorem measAscLe_trans :
    ∀ a b c : Measurement, measAscLe a b = true → measAscLe b c = true →
      measAscLe a c = true := by
  intro a b c hab hbc
  unfold measAscLe at hab hbc ⊢
  by_cases h1 : a.test_date = b.test_date <;>
    by_cases h2 : b.test_date = c.test_date
  · rw [if_pos h1] at hab
    rw [if_pos h2] at hbc
    rw [if_pos (h1.trans h2)]
    simp only [decide_eq_true_eq] at *
    omega
  · have h3 : ¬(a.test_date = c.test_date) := fun hc => h2 (h1.symm.trans hc)
    rw [if_pos h1] at hab
    rw [if_neg h2] at hbc
    rw [if_neg h3, h1]
    exact hbc
  · have h3 : ¬(a.test_date = c.test_date) := fun hc => h1 (hc.trans h2.symm)
    rw [if_neg h1] at hab
    rw [if_pos h2] at hbc
    rw [if_neg h3, ← h2]
    exact hab
  · rw [if_neg h1] at hab
    rw [if_neg h2] at hbc
    by_cases h3 : a.test_date = c.test_date
    · exfalso
      rw [h3] at hab
      exact h2 (optAscLe_antisymm _ _ hbc hab)
    · rw [if_neg h3]
      exact optAscLe_trans _ _ _ hab hbc

/-- The by-name trend query as the spec words it: the owner's measurements
whose name contains the query as a case-insensitive substring, ascending by
date (spec-side definition, for comparison with `labValuesByTestName`). -/
def labValuesByTestNameSpecCI (s : DBState) (userId : Nat) (q : String) :
    List Measurement :=
  (s.lab_values.filter (fun m => m.user_id == userId &&
      occursIn (lowerList q.toList) (lowerList m.test_name.toList))).mergeSort
    measAscLe

/-- C9 as amended: for a query without `LIKE` wildcards or the escape
character, the by-name trend query returns exactly the owner's measurements
whose name contains the query as a case-SENSITIVE substring (SQL `LIKE` in
PostgreSQL is case-sensitive), ordered ascending by test date, ties by
extraction date. -/
theorem c9_by_name_query (s : DBState) (uid : Nat) (q : String)
    (hq : hasLikeSpecial q.toList = false) :
    (labValuesByTestName s uid q).Perm
      (s.lab_values.filter (fun m => m.user_id == uid &&
        occursIn q.toList m.test_name.toList)) ∧
    List.Pairwise (fun a b => measAscLe a b = true)
      (labValuesByTestName s uid q) := by
  constructor
  · unfold labValuesByTestName
    refine (List.mergeSort_perm _ _).trans ?_
    rw [List.filter_congr (fun m _ => by
      rw [likeMatch_contains q.toList hq m.test_name.toList])]
  · exact List.sorted_mergeSort measAscLe_trans measAscLe_total _

/-- Witness for C9's amended statement at a concrete state and query. -/
theorem c9_by_name_witness :
    (labValuesByTestName exState 1 "Heart").Perm
      (exState.lab_values.filter (fun m => m.user_id == 1 &&
        occursIn "Heart".toList m.test_name.toList)) :=
  (c9_by_name_query exState 1 "Heart" (by decide)).1

/-- A concrete measurement named `Glucose`. -/
def exMeasGlucose : Measurement :=
  { user_id := 1, record_id := 1, test_name := "Glucose",
    test_category := "Diabetes", value := 90, unit := "mg/dL",
    reference_range := "70-100", is_abnormal := false, test_date := some 3,
    extraction_date := 4, confidence_score := 9 }

/-- A concrete state holding only `exMeasGlucose`. -/
def exState9 : DBState :=
  { users := [exUser], pdf_records := [exRecord],
    lab_values := [exMeasGlucose], ai_lab_analysis := [], nextRecordId := 2,
    errorLog := [] }

/-- Counterexample to C9 as stated: the query `glucose` misses the
measurement named `Glucose` (matching is case-sensitive), while the spec's
case-insensitive reading returns it. -/
theorem c9_counterexample :
    labValuesByTestName exState9 1 "glucose" = [] ∧
    labValuesByTestNameSpecCI exState9 1 "glucose" = [exMeasGlucose] := by
  constructor
  · unfold labValuesByTestName
    rw [List.filter_congr (fun m _ => by
      rw [likeMatch_contains "glucose".toList (by decide) m.test_name.toList])]
    rw [show exState9.lab_values.filter (fun m => m.user_id == 1 &&
        occursIn "glucose".toList m.test_name.toList) = [] from by decide]
    exact List.mergeSort_nil
  · unfold labValuesByTestNameSpecCI
    rw [show exState9.lab_values.filter (fun m => m.user_id == 1 &&
        occursIn (lowerList "glucose".toList) (lowerList m.test_name.toList)) =
        [exMeasGlucose] from by decide]
    exact List.mergeSort_singleton exMeasGlucose

/-! ## Claim C4: the upload batch -/

/-- The failure entry one file contributes, if its extraction fails. -/
def fileFailureOf (pdfParseFn mammothFn : UFile → Except String String)
    (f : UFile) : Option UploadFailure :=
  match extractFileText pdfParseFn mammothFn f with
  | .error e => some ⟨f.originalname, e⟩
  | .ok _ => none

/-- The name and lab-report flag one file contributes, if it succeeds. -/
def fileSuccessProj (pdfParseFn mammothFn : UFile → Except String String)
    (f : UFile) : Option (String × Bool) :=
  match extractFileText pdfParseFn mammothFn f with
  | .ok t => some (f.originalname, detectLabReport t)
  | .error _ => none

/-- A success entry's record id denotes a stored record of the right owner
with the entry's file name. -/
def recPresent (s : DBState) (uid : Nat) (u : UploadSuccess) : Prop :=
  ∃ rec ∈ s.pdf_records,
    rec.id = u.record_id ∧ rec.original_name = u.filename ∧ rec.user_id = uid

/-- The AI analysis step keeps every already-present record (only its
analysis flag can change). -/
theorem recPresent_analyzeLab (ai : AIFun) (insertOk : InsertOk)
    (text : String) (rid uid2 now uid : Nat) (s : DBState)
    (u : UploadSuccess) (h : recPresent s uid u) :
    recPresent (analyzeLabDataWithAI ai insertOk text rid uid2 now s).1 uid u := by
  unfold analyzeLabDataWithAI
  dsimp only
  cases hx : ai (text.take 15000) (historyFor s uid2 rid) with
  | none => exact h
  | some a =>
    dsimp only
    obtain ⟨rec, hmem, h1, h2, h3⟩ := h
    exact ⟨markAnalyzed rid rec, List.mem_map_of_mem _ hmem,
      by rw [markAnalyzed_id]; exact h1,
      by rw [markAnalyzed_original_name]; exact h2,
      by rw [markAnalyzed_user_id]; exact h3⟩

/-- A file whose extraction fails leaves the state untouched and reports the
file name with the reason. -/
theorem processUploadFile_err (hasKey : Bool)
    (pdfParseFn mammothFn : UFile → Except String String) (ai : AIFun)
    (insertOk : InsertOk) (rt : String) (uid now : Nat) (s : DBState)
    (f : UFile) (e : String)
    (hx : extractFileText pdfParseFn mammothFn f = .error e) :
    processUploadFile hasKey pdfParseFn mammothFn ai insertOk rt uid now s f =
      (s, .inr ⟨f.originalname, e⟩) := by
  unfold processUploadFile
  rw [hx]

/-- A file whose extraction succeeds reports the created record id and the
classifier's flag. -/
theorem processUploadFile_ok_snd (hasKey : Bool)
    (pdfParseFn mammothFn : UFile → Except String String) (ai : AIFun)
    (insertOk : InsertOk) (rt : String) (uid now : Nat) (s : DBState)
    (f : UFile) (t : String)
    (hx : extractFileText pdfParseFn mammothFn f = .ok t) :
    (processUploadFile hasKey pdfParseFn mammothFn ai insertOk rt uid now s f).2 =
      .inl ⟨f.originalname, s.nextRecordId, detectLabReport t⟩ := by
  unfold processUploadFile
  rw [hx]

/-- Processing one file preserves every already-present record. -/
theorem recPresent_processUploadFile (hasKey : Bool)
    (pdfParseFn mammothFn : UFile → Except String String) (ai : AIFun)
    (insertOk : InsertOk) (rt : String) (uid now : Nat) (s : DBState)
    (f : UFile) (u : UploadSuccess) (h : recPresent s uid u) :
    recPresent
      (processUploadFile hasKey pdfParseFn mammothFn ai insertOk rt uid now s f).1
      uid u := by
  unfold processUploadFile
  cases hx : extractFileText pdfParseFn mammothFn f with
  | error e => exact h
  | ok t =>
    dsimp only
    obtain ⟨rec, hmem, hrest⟩ := h
    have hbase : recPresent
        { s with
            pdf_records := s.pdf_records ++ [newRecordOf rt uid now f t s.nextRecordId],
            nextRecordId := s.nextRecordId + 1 } uid u :=
      ⟨rec, List.mem_append_left _ hmem, hrest⟩
    cases hasKey with
    | false => exact hbase
    | true =>
      exact recPresent_analyzeLab ai insertOk t s.nextRecordId uid now uid _ u hbase

/-- The record created for a successfully extracted file is present
afterwards under the success entry's id, name and owner. -/
theorem recPresent_new (hasKey : Bool)
    (pdfParseFn mammothFn : UFile → Except String String) (ai : AIFun)
    (insertOk : InsertOk) (rt : String) (uid now : Nat) (s : DBState)
    (f : UFile) (t : String)
    (hx : extractFileText pdfParseFn mammothFn f = .ok t) :
    recPresent
      (processUploadFile hasKey pdfParseFn mammothFn ai insertOk rt uid now s f).1
      uid ⟨f.originalname, s.nextRecordId, detectLabReport t⟩ := by
  unfold processUploadFile
  rw [hx]
  dsimp only
  have hbase : recPresent
      { s with
          pdf_records := s.pdf_records ++ [newRecordOf rt uid now f t s.nextRecordId],
          nextRecordId := s.nextRecordId + 1 } uid
      ⟨f.originalname, s.nextRecordId, detectLabReport t⟩ :=
    ⟨newRecordOf rt uid now f t s.nextRecordId,
      List.mem_append_right _ (List.mem_singleton.mpr rfl), rfl, rfl, rfl⟩
  cases hasKey with
  | false => exact hbase
  | true =>
    exact recPresent_analyzeLab ai insertOk t s.nextRecordId uid now uid _ _ hbase

/-- One loop step on an extraction failure appends to the errors list. -/
theorem uploadStep_err (hasKey : Bool)
    (pdfParseFn mammothFn : UFile → Except String String) (ai : AIFun)
    (insertOk : InsertOk) (rt : String) (uid now : Nat)
    (acc : DBState × List UploadSuccess × List UploadFailure)
    (f : UFile) (e : String)
    (hx : extractFileText pdfParseFn mammothFn f = .error e) :
    uploadStep hasKey pdfParseFn mammothFn ai insertOk rt uid now acc f =
      (acc.1, acc.2.1, acc.2.2 ++ [⟨f.originalname, e⟩]) := by
  unfold uploadStep
  dsimp only
  rw [processUploadFile_err hasKey pdfParseFn mammothFn ai insertOk rt uid now
    acc.1 f e hx]

/-- One loop step on a successful file appends to the results list. -/
theorem uploadStep_ok (hasKey : Bool)
    (pdfParseFn mammothFn : UFile → Except String String) (ai : AIFun)
    (insertOk : InsertOk) (rt : String) (uid now : Nat)
    (acc : DBState × List UploadSuccess × List UploadFailure)
    (f : UFile) (t : String)
    (hx : extractFileText pdfParseFn mammothFn f = .ok t) :
    uploadStep hasKey pdfParseFn mammothFn ai insertOk rt uid now acc f =
      ((processUploadFile hasKey pdfParseFn mammothFn ai insertOk rt uid now
          acc.1 f).1,
        acc.2.1 ++ [⟨f.originalname, acc.1.nextRecordId, detectLabReport t⟩],
        acc.2.2) := by
  unfold uploadStep
  dsimp only
  rw [processUploadFile_ok_snd hasKey pdfParseFn mammothFn ai insertOk rt uid now
    acc.1 f t hx]

/-- The errors list the loop accumulates, in file order. -/
theorem uploadLoop_errors (hasKey : Bool)
    (pdfParseFn mammothFn : UFile → Except String String) (ai : AIFun)
    (insertOk : InsertOk) (rt : String) (uid now : Nat) :
    ∀ (files : List UFile) (s : DBState) (succ0 : List UploadSuccess)
      (errs0 : List UploadFailure),
      (files.foldl (uploadStep hasKey pdfParseFn mammothFn ai insertOk rt uid now)
          (s, succ0, errs0)).2.2 =
        errs0 ++ files.filterMap (fileFailureOf pdfParseFn mammothFn) := by
  intro files
  induction files with
  | nil => intro s succ0 errs0; simp
  | cons f rest ih =>
    intro s succ0 errs0
    rw [List.foldl_cons]
    cases hx : extractFileText pdfParseFn mammothFn f with
    | error e =>
      rw [uploadStep_err hasKey pdfParseFn mammothFn ai insertOk rt uid now
        (s, succ0, errs0) f e hx, ih]
      simp [fileFailureOf, hx, List.filterMap_cons]
    | ok t =>
      rw [uploadStep_ok hasKey pdfParseFn mammothFn ai insertOk rt uid now
        (s, succ0, errs0) f t hx, ih]
      simp [fileFailureOf, hx, List.filterMap_cons]

/-- The file names and flags of the results list, in file order. -/
theorem uploadLoop_results (hasKey : Bool)
    (pdfParseFn mammothFn : UFile → Except String String) (ai : AIFun)
    (insertOk : InsertOk) (rt : String) (uid now : Nat) :
    ∀ (files : List UFile) (s : DBState) (succ0 : List UploadSuccess)
      (errs0 : List UploadFailure),
      ((files.foldl (uploadStep hasKey pdfParseFn mammothFn ai insertOk rt uid now)
          (s, succ0, errs0)).2.1).map (fun u => (u.filename, u.is_lab_report)) =
        succ0.map (fun u => (u.filename, u.is_lab_report)) ++
          files.filterMap (fileSuccessProj pdfParseFn mammothFn) := by
  intro files
  induction files with
  | nil => intro s succ0 errs0; simp
  | cons f rest ih =>
    intro s succ0 errs0
    rw [List.foldl_cons]
    cases hx : extractFileText pdfParseFn mammothFn f with
    | error e =>
      rw [uploadStep_err hasKey pdfParseFn mammothFn ai insertOk rt uid now
        (s, succ0, errs0) f e hx, ih]
      simp [fileSuccessProj, hx, List.filterMap_cons]
    | ok t =>
      rw [uploadStep_ok hasKey pdfParseFn mammothFn ai insertOk rt uid now
        (s, succ0, errs0) f t hx, ih]
      simp [fileSuccessProj, hx, List.filterMap_cons]

/-- Counts: every file lands in exactly one of the two lists. -/
theorem uploadLoop_counts (hasKey : Bool)
    (pdfParseFn mammothFn : UFile → Except String String) (ai : AIFun)
    (insertOk : InsertOk) (rt : String) (uid now : Nat) :
    ∀ (files : List UFile) (s : DBState) (succ0 : List UploadSuccess)
      (errs0 : List UploadFailure),
      (files.foldl (uploadStep hasKey pdfParseFn mammothFn ai insertOk rt uid now)
          (s, succ0, errs0)).2.1.length +
        (files.foldl (uploadStep hasKey pdfParseFn mammothFn ai insertOk rt uid now)
          (s, succ0, errs0)).2.2.length =
        succ0.length + errs0.length + files.length := by
  intro files
  induction files with
  | nil => intro s succ0 errs0; simp
  | cons f rest ih =>
    intro s succ0 errs0
    rw [List.foldl_cons]
    cases hx : extractFileText pdfParseFn mammothFn f with
    | error e =>
      rw [uploadStep_err hasKey pdfParseFn mammothFn ai insertOk rt uid now
        (s, succ0, errs0) f e hx]
      rw [ih]
      simp only [List.length_append, List.length_cons, List.length_nil]
      omega
    | ok t =>
      rw [uploadStep_ok hasKey pdfParseFn mammothFn ai insertOk rt uid now
        (s, succ0, errs0) f t hx]
      rw [ih]
      simp only [List.length_append, List.length_cons, List.length_nil]
      omega

/-- Every success entry of the loop denotes a record present in the final
state. -/
theorem uploadLoop_present (hasKey : Bool)
    (pdfParseFn mammothFn : UFile → Except String String) (ai : AIFun)
    (insertOk : InsertOk) (rt : String) (uid now : Nat) :
    ∀ (files : List UFile) (s : DBState) (succ0 : List UploadSuccess)
      (errs0 : List UploadFailure),
      (∀ u ∈ succ0, recPresent s uid u) →
      ∀ u ∈ (files.foldl
          (uploadStep hasKey pdfParseFn mammothFn ai insertOk rt uid now)
          (s, succ0, errs0)).2.1,
        recPresent (files.foldl
          (uploadStep hasKey pdfParseFn mammothFn ai insertOk rt uid now)
          (s, succ0, errs0)).1 uid u := by
  intro files
  induction files with
  | nil =>
    intro s succ0 errs0 h u hu
    exact h u hu
  | cons f rest ih =>
    intro s succ0 errs0 h
    rw [List.foldl_cons]
    cases hx : extractFileText pdfParseFn mammothFn f with
    | error e =>
      rw [uploadStep_err hasKey pdfParseFn mammothFn ai insertOk rt uid now
        (s, succ0, errs0) f e hx]
      exact ih s succ0 (errs0 ++ [⟨f.originalname, e⟩]) h
    | ok t =>
      rw [uploadStep_ok hasKey pdfParseFn mammothFn ai insertOk rt uid now
        (s, succ0, errs0) f t hx]
      apply ih
      intro u hu
      rcases List.mem_append.mp hu with hold | hnew
      · exact recPresent_processUploadFile hasKey pdfParseFn mammothFn ai
          insertOk rt uid now s f u (h u hold)
      · rw [List.mem_singleton] at hnew
        subst hnew
        exact recPresent_new hasKey pdfParseFn mammothFn ai insertOk rt uid now
          s f t hx

/-- C4: a nonempty batch is processed per file: a failing file aborts nothing,
the response's success count plus failure count equals the batch size, the
failures carry each failed file's name and reason in the original order, the
successes carry each succeeding file's name and classifier flag in the
original order, and every success entry's record id denotes a stored record
of the caller. -/
theorem c4_upload_batch_partition (hasKey : Bool)
    (pdfParseFn mammothFn : UFile → Except String String) (ai : AIFun)
    (insertOk : InsertOk) (rt : String) (uid now : Nat)
    (files : List UFile) (s : DBState) (hne : files ≠ []) :
    uploadEndpoint hasKey pdfParseFn mammothFn ai insertOk rt uid now files s =
      ((files.foldl (uploadStep hasKey pdfParseFn mammothFn ai insertOk rt uid now)
          (s, [], [])).1,
        .processed
          (files.foldl (uploadStep hasKey pdfParseFn mammothFn ai insertOk rt uid now)
            (s, [], [])).2.1.length
          (files.foldl (uploadStep hasKey pdfParseFn mammothFn ai insertOk rt uid now)
            (s, [], [])).2.2.length
          (files.foldl (uploadStep hasKey pdfParseFn mammothFn ai insertOk rt uid now)
            (s, [], [])).2.1
          (files.foldl (uploadStep hasKey pdfParseFn mammothFn ai insertOk rt uid now)
            (s, [], [])).2.2) ∧
    (files.foldl (uploadStep hasKey pdfParseFn mammothFn ai insertOk rt uid now)
        (s, [], [])).2.1.length +
      (files.foldl (uploadStep hasKey pdfParseFn mammothFn ai insertOk rt uid now)
        (s, [], [])).2.2.length = files.length ∧
    (files.foldl (uploadStep hasKey pdfParseFn mammothFn ai insertOk rt uid now)
        (s, [], [])).2.2 =
      files.filterMap (fileFailureOf pdfParseFn mammothFn) ∧
    ((files.foldl (uploadStep hasKey pdfParseFn mammothFn ai insertOk rt uid now)
        (s, [], [])).2.1).map (fun u => (u.filename, u.is_lab_report)) =
      files.filterMap (fileSuccessProj pdfParseFn mammothFn) ∧
    ∀ u ∈ (files.foldl (uploadStep hasKey pdfParseFn mammothFn ai insertOk rt uid now)
        (s, [], [])).2.1,
      recPresent (files.foldl
        (uploadStep hasKey pdfParseFn mammothFn ai insertOk rt uid now)
        (s, [], [])).1 uid u := by
  refine ⟨?_, ?_,
    uploadLoop_errors hasKey pdfParseFn mammothFn ai insertOk rt uid now files s [] [],
    by simpa using
      uploadLoop_results hasKey pdfParseFn mammothFn ai insertOk rt uid now files s [] [],
    uploadLoop_present hasKey pdfParseFn mammothFn ai insertOk rt uid now files s [] []
      (by simp)⟩
  · unfold uploadEndpoint
    rw [if_neg (by simp [hne])]
  · have := uploadLoop_counts hasKey pdfParseFn mammothFn ai insertOk rt uid now files s [] []
    simpa using this

/-- A file whose extraction succeeds. -/
def exFileGood : UFile :=
  { filename := "u1-a.pdf", originalname := "a.pdf",
    mimetype := "application/pdf", size := 10 }

/-- A file whose extraction fails. -/
def exFileBad : UFile :=
  { filename := "u2-b.pdf", originalname := "b.pdf",
    mimetype := "application/pdf", size := 10 }

/-- A PDF decoder that fails exactly on `b.pdf`. -/
def exPdfParse : UFile → Except String String := fun f =>
  if f.originalname == "b.pdf" then .error "ExtractionFailed"
  else .ok "ecg and mri"

/-- A DOCX decoder that always yields empty text. -/
def exMammoth : UFile → Except String String := fun _ => .ok ""

/-- Witness for C4 on a two-file batch with one corrupted file. -/
theorem c4_upload_witness :
    ([exFileGood, exFileBad].foldl
        (uploadStep true exPdfParse exMammoth exAI exInsertOk "Blood Test" 1 0)
        (exState, [], [])).2.2 =
      [exFileGood, exFileBad].filterMap (fileFailureOf exPdfParse exMammoth) :=
  (c4_upload_batch_partition true exPdfParse exMammoth exAI exInsertOk
    "Blood Test" 1 0 [exFileGood, exFileBad] exState
    (List.cons_ne_nil _ _)).2.2.1

end PatientPortal
